import Mathlib

/-!
# tflint-ruleset-ably: version-constraint rules

A shallow embedding of `rules/rightmost_operator_rule.go` (the Format Rule) and
`rules/aws_module_version_rule.go` (the Cross-Version Rule).

Go strings are modelled as `String` and scanned as lists of characters, Go `int`
as `Int` (64-bit range where a conversion can overflow).  The two regular
expressions of the rules are written as terms of `Regex` and run by a
leftmost-first matcher for the fragment of RE2 syntax they use.

A call that emits issues is modelled by the list of the issues it emits when it
returns; a call can also end in a failure, the error of `GetFiles` or a panic of
`AsString` or `GetAttr` on a null value, which is recorded with the issues emitted
before it.
-/

namespace TflintAbly

/-! ## The regular-expression fragment -/

/-- Character classes occurring in the patterns. -/
inductive CharClass where
  /-- a literal character, such as `~` or an escaped dot -/
  | lit (c : Char)
  /-- the class `\s`, in RE2 `[\t\n\f\r ]` -/
  | space
  /-- the class `\d`, in RE2 `[0-9]` -/
  | digit

/-- The class `\s` of RE2: tab, line feed, form feed, carriage return, space. -/
def isSpace (c : Char) : Bool :=
  c.toNat == 9 || c.toNat == 10 || c.toNat == 12 || c.toNat == 13 || c.toNat == 32

/-- The class `\d` of RE2: the ASCII digits `0` to `9`. -/
def isDigit (c : Char) : Bool :=
  decide (48 ≤ c.toNat) && decide (c.toNat ≤ 57)

/-- Whether a character belongs to a class. -/
def CharClass.test : CharClass → Char → Bool
  | .lit c, x => x == c
  | .space, x => isSpace x
  | .digit, x => isDigit x

/-- Regular expressions: anchors, single characters of a class, greedy repetition of
a class, concatenation and capturing groups. -/
inductive Regex where
  /-- the anchor `^`, the beginning of the text -/
  | beginText
  /-- the anchor `$`, the end of the text (no multi-line flag) -/
  | endText
  /-- one character of the class -/
  | one (c : CharClass)
  /-- greedy repetition `c*` -/
  | star (c : CharClass)
  /-- greedy repetition `c+` -/
  | plus (c : CharClass)
  /-- concatenation -/
  | seq (a b : Regex)
  /-- a capturing group `( ... )` -/
  | group (r : Regex)

/-- A matcher thread: the offset reached, the text still ahead, and the groups closed so
far (in closing order). -/
structure MState where
  pos : Nat
  rest : List Char
  caps : List (List Char)

/-- All ways `c*` can consume a prefix of the text ahead, longest first (greedy). -/
def starRun (c : CharClass) (caps : List (List Char)) : Nat → List Char → List MState
  | pos, [] => [⟨pos, [], caps⟩]
  | pos, x :: xs =>
    (if c.test x then starRun c caps (pos + 1) xs else []) ++ [⟨pos, x :: xs, caps⟩]

/-- All ways the expression can match at a thread, in order of preference
(leftmost-first semantics: the head of the result is the match that is reported). -/
def Regex.run : Regex → MState → List MState
  | .beginText, st => if st.pos = 0 then [st] else []
  | .endText, st => if st.rest.isEmpty then [st] else []
  | .one c, st =>
    match st.rest with
    | [] => []
    | x :: xs => if c.test x then [⟨st.pos + 1, xs, st.caps⟩] else []
  | .star c, st => starRun c st.caps st.pos st.rest
  | .plus c, st =>
    match st.rest with
    | [] => []
    | x :: xs => if c.test x then starRun c st.caps (st.pos + 1) xs else []
  | .seq a b, st => (a.run st).flatMap b.run
  | .group r, st =>
    (r.run st).map fun st1 => ⟨st1.pos, st1.rest, st1.caps ++ [st.rest.take (st1.pos - st.pos)]⟩

/-- Unanchored search: the first offset, from `pos` on, at which the expression matches,
with the preferred match there.  The result is the matched text followed by the text of
each group. -/
def Regex.search (re : Regex) : Nat → List Char → Option (List (List Char))
  | pos, [] =>
    match (re.run ⟨pos, [], []⟩).head? with
    | some st => some ([] :: st.caps)
    | none => none
  | pos, x :: xs =>
    match (re.run ⟨pos, x :: xs, []⟩).head? with
    | some st => some ((x :: xs).take (st.pos - pos) :: st.caps)
    | none => re.search (pos + 1) xs

/-- Go `(*Regexp).FindStringSubmatch`: the leftmost match and its groups, the empty
slice (nil) when there is none. -/
def FindStringSubmatch (re : Regex) (s : String) : List String :=
  match re.search 0 s.data with
  | some ms => ms.map String.mk
  | none => []

/-- Go `(*Regexp).MatchString`: whether the text contains any match. -/
def MatchString (re : Regex) (s : String) : Bool :=
  (re.search 0 s.data).isSome

/-! ## The Constraint Parser -/

/-- The pattern `^\s*~>\s*(\d+)\.(\d+)\s*$` compiled in `checkVersionConstraint` and in
`checkRightmostOperator`. -/
def validPattern : Regex :=
  .seq .beginText <| .seq (.star .space) <| .seq (.one (.lit '~')) <| .seq (.one (.lit '>')) <|
  .seq (.star .space) <| .seq (.group (.plus .digit)) <| .seq (.one (.lit '.')) <|
  .seq (.group (.plus .digit)) <| .seq (.star .space) .endText

/-- The pattern `^\s*~>\s*(\d+)\.` compiled in `extractMajorVersion`. -/
def majorPattern : Regex :=
  .seq .beginText <| .seq (.star .space) <| .seq (.one (.lit '~')) <| .seq (.one (.lit '>')) <|
  .seq (.star .space) <| .seq (.group (.plus .digit)) (.one (.lit '.'))

/-- The specification's `ValidateFormat`: the test both copies of the format check make. -/
def ValidateFormat (raw : String) : Bool :=
  MatchString validPattern raw

/-- Decimal value of a run of digits. -/
def decimalValue (ds : List Char) : Nat :=
  ds.foldl (fun acc c => 10 * acc + (c.toNat - 48)) 0

/-- Largest value of a Go `int` (64-bit targets). -/
def maxInt : Nat := 2 ^ 63 - 1

/-- Go `fmt.Sscanf(tok, "%d", &major)` for a token of decimal digits, which is all the
group `(\d+)` can hold: the value read, or `none` for the error Sscanf returns when there
is no digit to read or the value does not fit an `int`. -/
def sscanfInt (tok : String) : Option Int :=
  let ds := tok.data.takeWhile isDigit
  if ds.isEmpty then none
  else if decimalValue ds ≤ maxInt then some (Int.ofNat (decimalValue ds))
  else none

/-- Go `extractMajorVersion`: the major version of a constraint, `-1` when it cannot be
determined. -/
def extractMajorVersion (versionConstraint : String) : Int :=
  match FindStringSubmatch majorPattern versionConstraint with
  | _ :: tok :: _ =>
    match sscanfInt tok with
    | some major => major
    | none => -1
  | _ => -1

/-- A run of whitespace, as matched by `\s*`. -/
def AllSpace (ws : List Char) : Prop := ∀ x ∈ ws, isSpace x = true

/-- A run of decimal digits, as matched by `\d*`. -/
def AllDigit (ds : List Char) : Prop := ∀ x ∈ ds, isDigit x = true

instance (ws : List Char) : Decidable (AllSpace ws) :=
  inferInstanceAs (Decidable (∀ x ∈ ws, isSpace x = true))

instance (ds : List Char) : Decidable (AllDigit ds) :=
  inferInstanceAs (Decidable (∀ x ∈ ds, isDigit x = true))

/-- A text with the whitespace at both ends removed. -/
def trimSpace (s : List Char) : List Char :=
  ((s.dropWhile isSpace).reverse.dropWhile isSpace).reverse

/-- The accepted shape in the words of the specification: with the surrounding
whitespace removed, the text is exactly `~>`, whitespace (possibly none), one or more
digits, a dot, and one or more digits. -/
def WellFormed (raw : String) : Prop :=
  ∃ ws a b, trimSpace raw.data = '~' :: '>' :: (ws ++ (a ++ '.' :: b)) ∧
    AllSpace ws ∧ AllDigit a ∧ a ≠ [] ∧ AllDigit b ∧ b ≠ []

/-- The text after the operator: leading whitespace, the two characters of `~>` and the
whitespace behind them removed. -/
def afterOperator (s : List Char) : List Char :=
  ((s.dropWhile isSpace).drop 2).dropWhile isSpace

/-- The first integer component of a constraint: the digits that follow the operator. -/
def majorDigits (s : List Char) : List Char :=
  (afterOperator s).takeWhile isDigit

/-- The texts `majorPattern` matches: whitespace, `~>`, whitespace, digits, a dot. -/
def MajorShape (s ws1 ws2 a rest : List Char) : Prop :=
  s = ws1 ++ '~' :: '>' :: (ws2 ++ (a ++ '.' :: rest)) ∧
    AllSpace ws1 ∧ AllSpace ws2 ∧ AllDigit a ∧ a ≠ []

/-! ## Documents, values and diagnostics -/

/-- Go `hcl.Pos`. -/
structure Pos where
  Line : Nat
  Column : Nat
  Byte : Nat
  deriving DecidableEq

/-- Go `hcl.Range`. -/
structure Range where
  Filename : String
  Start : Pos
  End : Pos
  deriving DecidableEq

/-- An issue as recorded by the runner: the name of the rule, the message, the range. -/
structure Issue where
  Rule : String
  Message : String
  Range : Range
  deriving DecidableEq

/-- How a call ends when it does not return its result, with the issues it has emitted
before: it returns an error (the one of `GetFiles`), or it panics (`AsString` or `GetAttr`
on a null value). A panic is not recovered by the rules: it unwinds through `Check`. -/
inductive Failure where
  | error (err : String) (emitted : List Issue)
  | panic (emitted : List Issue)
  deriving DecidableEq

/-- The failure of a call that comes after the given issues have been emitted. -/
def Failure.after (issues : List Issue) : Failure → Failure
  | .error err emitted => .error err (issues ++ emitted)
  | .panic emitted => .panic (issues ++ emitted)

/-- Go `cty.Type`, as far as the rules tell types apart: `cty.String`, an object type
(with the names of its attributes), or any other type (number, bool, list, tuple, ...,
and the dynamic pseudo-type, which is the type of the literal `null`). -/
inductive CtyType where
  | string
  | object (attributes : List String)
  | other
  deriving DecidableEq

/-- Go `cty.Value`, the values an attribute expression evaluates to without an evaluation
context: a string, an object with named attributes, a null of some type (`cty.NullVal`:
the literal `null` is a null of the dynamic pseudo-type, `true ? null : "x"` a null of
type string, `true ? null : { version = "x" }` a null of an object type), or a value that
is not null of another type. -/
inductive Value where
  | string (s : String)
  | object (attrs : List (String × Value))
  | null (ty : CtyType)
  | other

/-- Go `val.Type()`. -/
def Value.Type : Value → CtyType
  | .string _ => .string
  | .object attrs => .object (attrs.map Prod.fst)
  | .null ty => ty
  | .other => .other

/-- Go `val.IsNull()`. -/
def Value.IsNull : Value → Bool
  | .null _ => true
  | _ => false

/-- Go `ty.IsObjectType()`. -/
def CtyType.IsObjectType : CtyType → Bool
  | .object _ => true
  | _ => false

/-- Go `ty.HasAttribute(name)`. The rules call it behind `IsObjectType() &&`, so on object
types only (on another type cty panics; here the answer is `false`, which `&&` gives
without the call). -/
def CtyType.HasAttribute : CtyType → String → Bool
  | .object attributes, name => attributes.contains name
  | _, _ => false

/-- Go `val.AsString()`: the string of a string value; cty panics on a value of another
type and on a null, also on a null of type string. -/
def Value.AsString : Value → Except Failure String
  | .string s => .ok s
  | _ => .error (.panic [])

/-- Go `val.GetAttr(name)`. The rules call it on values of an object type that has the
attribute: it gives the attribute of an object value, and cty panics on a null of that
type. On a value of another type and on an attribute the type does not have, where the
rules do not call it, cty panics as well (for the dynamic pseudo-type it gives an unknown
value instead): they all are a panic here. -/
def Value.GetAttr : Value → String → Except Failure Value
  | .object attrs, name =>
    match attrs.lookup name with
    | some attr => .ok attr
    | none => .error (.panic [])
  | _, _ => .error (.panic [])

/-- An expression as the rules see it: the outcome of `Expr.Value(nil)` (a value, and
whether the diagnostics have errors) and `Expr.Range()`. -/
structure Expression where
  Value : Value
  HasErrors : Bool
  Range : Range

/-- Go `hclsyntax.Attribute`, of which the rules read `Expr`. -/
structure Attribute where
  Expr : Expression

/-- Go `hclsyntax.Block`: its type, labels, and the attributes and blocks of its body.
Attribute maps are association lists, in the order the map is iterated. -/
inductive Block where
  | mk (type : String) (labels : List String) (attributes : List (String × Attribute))
      (blocks : List Block)

/-- Go `hclsyntax.Body`. -/
structure Body where
  Attributes : List (String × Attribute)
  Blocks : List Block

/-- Go `block.Type`. -/
def Block.Type : Block → String
  | .mk t _ _ _ => t

/-- Go `block.Labels`. -/
def Block.Labels : Block → List String
  | .mk _ l _ _ => l

/-- Go `block.Body`. -/
def Block.Body : Block → Body
  | .mk _ _ a b => ⟨a, b⟩

/-- Go `hcl.File`: `Body` is `none` when the body is not an `*hclsyntax.Body` (the type
assertion of `checkFile` fails). -/
structure File where
  Body : Option Body

/-- The runner: `GetFiles` gives the files by name (in the order the map is iterated) or
an error; `EmitIssue` records the issue and returns no error. -/
structure Runner where
  GetFiles : Except String (List (String × File))

/-- Go `runner.EmitIssue(r, message, rng)`: the issue recorded. -/
def EmitIssue (rule : String) (message : String) (rng : Range) : List Issue :=
  [⟨rule, message, rng⟩]

/-- Two steps in sequence, the Go idiom `if err := first; err != nil { return err }`
followed by `second`: the issues of both in order, or the failure of the first of them
that does not return, after the issues emitted until then. -/
def andThen (first second : Except Failure (List Issue)) : Except Failure (List Issue) :=
  match first with
  | .error failure => .error failure
  | .ok issues =>
    match second with
    | .error failure => .error (failure.after issues)
    | .ok more => .ok (issues ++ more)

/-- A Go `for ... range` loop whose body emits issues: the bodies in sequence, up to the
first that does not return. -/
def forEach {α : Type} (xs : List α) (body : α → Except Failure (List Issue)) :
    Except Failure (List Issue) :=
  match xs with
  | [] => .ok []
  | x :: rest => andThen (body x) (forEach rest body)

/-- A Go `for ... range` loop whose body may return a result from the enclosing function
(`some`) or go on to the next element (`none`): the first result, `none` when the loop
ends without one, and the panic of a body that panics before there is a result. -/
def firstResult {α β : Type} (xs : List α) (body : α → Except Failure (Option β)) :
    Except Failure (Option β) :=
  match xs with
  | [] => .ok none
  | x :: rest =>
    match body x with
    | .ok none => firstResult rest body
    | result => result

/-- The message both copies of the format check build with `fmt.Sprintf`. -/
def formatMessage (name version : String) : String :=
  name ++ " version constraint should use '~> x.y' format where x is the major version and y is the minor version (no patch version), got: " ++ version

/-! ## The Format Rule (`rightmost_operator_rule.go`) -/

namespace RightmostOperatorRule

/-- Go `(*RightmostOperatorRule).Name`. -/
def Name : String := "rightmost_operator_rule"

/-- Go `checkVersionConstraint`: the issues it emits. -/
def checkVersionConstraint (version : String) (rng : Range) (providerName : String) :
    List Issue :=
  if !MatchString validPattern version then
    EmitIssue Name (formatMessage providerName version) rng
  else []

/-- The body of the loop over the attributes of a `required_providers` block. -/
def checkRequiredProvider (name : String) (attr : Attribute) : Except Failure (List Issue) :=
  let val := attr.Expr.Value
  if attr.Expr.HasErrors then .ok []
  else if val.Type.IsObjectType && val.Type.HasAttribute "version" then
    match val.GetAttr "version" with
    | .error failure => .error failure
    | .ok versionVal =>
      if !versionVal.IsNull && versionVal.Type == .string then
        match versionVal.AsString with
        | .error failure => .error failure
        | .ok version =>
          .ok (checkVersionConstraint version attr.Expr.Range ("Provider " ++ name))
      else .ok []
  else .ok []

/-- Go `checkTerraformBlock`. -/
def checkTerraformBlock (block : Block) : Except Failure (List Issue) :=
  forEach block.Body.Blocks fun innerBlock =>
    if innerBlock.Type = "required_providers" then
      forEach innerBlock.Body.Attributes fun na => checkRequiredProvider na.1 na.2
    else .ok []

/-- Go `checkProviderBlock`; the caller guarantees a first label (`""` stands for the
missing one, which is never read). -/
def checkProviderBlock (block : Block) : Except Failure (List Issue) :=
  match block.Body.Attributes.lookup "version" with
  | some attr =>
    let val := attr.Expr.Value
    if !attr.Expr.HasErrors && val.Type == .string then
      match val.AsString with
      | .error failure => .error failure
      | .ok version =>
        .ok (checkVersionConstraint version attr.Expr.Range
          ("Provider " ++ block.Labels.headD ""))
    else .ok []
  | none => .ok []

/-- Go `checkFile`. -/
def checkFile (file : File) : Except Failure (List Issue) :=
  match file.Body with
  | none => .ok []
  | some body =>
    forEach body.Blocks fun block =>
      if block.Type = "terraform" then checkTerraformBlock block
      else if block.Type = "provider" ∧ block.Labels.length > 0 then checkProviderBlock block
      else .ok []

/-- Go `(*RightmostOperatorRule).Check`: the issues emitted when it returns `nil`, the
error of `GetFiles`, or a panic. -/
def Check (runner : Runner) : Except Failure (List Issue) :=
  match runner.GetFiles with
  | .error err => .error (.error err [])
  | .ok files => forEach files fun nf => checkFile nf.2

end RightmostOperatorRule

/-! ## The Cross-Version Rule (`aws_module_version_rule.go`) -/

/-- Go `sourceVersion`: matching major versions of provider and module. -/
structure sourceVersion where
  Provider : Int
  Module : Int
  deriving DecidableEq

/-- Go `sourceVersionMap`, the Compatibility Table. -/
def sourceVersionMap : List (String × List sourceVersion) :=
  [ ("terraform-aws-modules/s3-bucket/aws", [⟨5, 4⟩, ⟨6, 5⟩]),
    ("terraform-aws-modules/vpc/aws", [⟨5, 5⟩, ⟨6, 6⟩]),
    ("terraform-aws-modules/lambda/aws", [⟨5, 7⟩, ⟨6, 8⟩]) ]

/-- The compatibility loop of `checkModuleBlock`: the value of `compatible` after it. -/
def compatibleLoop (awsProviderMajor moduleMajor : Int) : List sourceVersion → Bool
  | [] => false
  | mapping :: rest =>
    if mapping.Provider = awsProviderMajor ∧ mapping.Module = moduleMajor then true
    else compatibleLoop awsProviderMajor moduleMajor rest

/-- The recommendation loop of `checkModuleBlock`: the value of `recommendedModule`
after it, `-1` when no mapping has the provider major. -/
def recommendedLoop (awsProviderMajor : Int) : List sourceVersion → Int
  | [] => -1
  | mapping :: rest =>
    if mapping.Provider = awsProviderMajor then mapping.Module
    else recommendedLoop awsProviderMajor rest

/-- The specification's `IsCompatible`: the compatibility loop over the entries of the
component (none for an identifier that is not in the table). -/
def IsCompatible (id : String) (externalMajor internalMajor : Int) : Bool :=
  compatibleLoop externalMajor internalMajor ((sourceVersionMap.lookup id).getD [])

/-- The specification's `RecommendedInternal`: the recommendation loop over the entries
of the component, and whether it found one (`recommendedModule != -1`). -/
def RecommendedInternal (id : String) (externalMajor : Int) : Int × Bool :=
  let recommendedModule := recommendedLoop externalMajor ((sourceVersionMap.lookup id).getD [])
  (recommendedModule, recommendedModule != -1)

/-- The six sanctioned combinations of component, provider major and module major. -/
def compatibleTriples : List (String × Int × Int) :=
  [ ("terraform-aws-modules/s3-bucket/aws", 5, 4),
    ("terraform-aws-modules/s3-bucket/aws", 6, 5),
    ("terraform-aws-modules/vpc/aws", 5, 5),
    ("terraform-aws-modules/vpc/aws", 6, 6),
    ("terraform-aws-modules/lambda/aws", 5, 7),
    ("terraform-aws-modules/lambda/aws", 6, 8) ]

namespace AwsModuleVersionRule

/-- Go `(*AwsModuleVersionRule).Name`. -/
def Name : String := "aws_module_version_rule"

/-- Go `checkRightmostOperator`: the issues it emits. -/
def checkRightmostOperator (version : String) (rng : Range) (name : String) : List Issue :=
  if !MatchString validPattern version then
    EmitIssue Name (formatMessage name version) rng
  else []

/-- The body of the innermost loop of `getAwsProviderVersion`: the version an attribute
of a `required_providers` block makes the function return (`some`), `none` when the loop
goes on. -/
def awsVersionOfAttribute (name : String) (attr : Attribute) : Except Failure (Option String) :=
  if name ≠ "aws" then .ok none
  else
    let val := attr.Expr.Value
    if attr.Expr.HasErrors then .ok none
    else if val.Type.IsObjectType && val.Type.HasAttribute "version" then
      match val.GetAttr "version" with
      | .error failure => .error failure
      | .ok versionVal =>
        if !versionVal.IsNull && versionVal.Type == .string then
          match versionVal.AsString with
          | .error failure => .error failure
          | .ok version => .ok (some version)
        else .ok none
    else .ok none

/-- The loops of `getAwsProviderVersion` over the blocks of one file. -/
def awsVersionOfFile (file : File) : Except Failure (Option String) :=
  match file.Body with
  | none => .ok none
  | some body =>
    firstResult body.Blocks fun block =>
      if block.Type = "terraform" then
        firstResult block.Body.Blocks fun innerBlock =>
          if innerBlock.Type = "required_providers" then
            firstResult innerBlock.Body.Attributes fun na => awsVersionOfAttribute na.1 na.2
          else .ok none
      else .ok none

/-- The loop of `getAwsProviderVersion` over the files: the version located, if any. -/
def awsVersionOfFiles (files : List (String × File)) : Except Failure (Option String) :=
  firstResult files fun nf => awsVersionOfFile nf.2

/-- Go `getAwsProviderVersion`: the first version found, `""` when there is none. -/
def getAwsProviderVersion (runner : Runner) : Except Failure String :=
  match runner.GetFiles with
  | .error err => .error (.error err [])
  | .ok files =>
    match awsVersionOfFiles files with
    | .error failure => .error failure
    | .ok (some version) => .ok version
    | .ok none => .ok ""

/-- The compatibility part of `checkModuleBlock`, from the extraction of the provider
major on. -/
def checkCompatibility (versionMap : List sourceVersion) (source moduleVersion : String)
    (versionRange : Range) (awsProviderVersion : String) : List Issue :=
  let awsProviderMajor := extractMajorVersion awsProviderVersion
  if awsProviderMajor = -1 then []
  else
    let moduleMajor := extractMajorVersion moduleVersion
    if moduleMajor = -1 then []
    else
      let compatible := compatibleLoop awsProviderMajor moduleMajor versionMap
      if !compatible then
        let recommendedModule := recommendedLoop awsProviderMajor versionMap
        if recommendedModule ≠ -1 then
          EmitIssue Name
            ("Module " ++ source ++ " version ~> " ++ toString moduleMajor ++
              ".0 is not compatible with AWS provider version " ++ awsProviderVersion ++
              ". Use module version ~> " ++ toString recommendedModule ++
              ".0 for AWS provider ~> " ++ toString awsProviderMajor ++ ".0")
            versionRange
        else
          EmitIssue Name
            ("Module " ++ source ++ " version ~> " ++ toString moduleMajor ++
              ".0 does not have a known compatibility mapping for AWS provider version " ++
              awsProviderVersion)
            versionRange
      else []

/-- Go `checkModuleBlock`: the issues it emits (the format issue before the
compatibility issue), or the panic of `AsString`, which comes before any issue. -/
def checkModuleBlock (block : Block) (awsProviderVersion : String) :
    Except Failure (List Issue) :=
  match block.Body.Attributes.lookup "source" with
  | none => .ok []
  | some sourceAttr =>
    let sourceVal := sourceAttr.Expr.Value
    if sourceAttr.Expr.HasErrors || sourceVal.Type != .string then .ok []
    else
      match sourceVal.AsString with
      | .error failure => .error failure
      | .ok source =>
        match sourceVersionMap.lookup source with
        | none => .ok []
        | some versionMap =>
          match block.Body.Attributes.lookup "version" with
          | none =>
            .ok (EmitIssue Name ("Module " ++ source ++ " should specify a version constraint")
              sourceAttr.Expr.Range)
          | some versionAttr =>
            let versionVal := versionAttr.Expr.Value
            if versionAttr.Expr.HasErrors || versionVal.Type != .string then .ok []
            else
              match versionVal.AsString with
              | .error failure => .error failure
              | .ok moduleVersion =>
                .ok (checkRightmostOperator moduleVersion versionAttr.Expr.Range
                    ("Module " ++ source)
                  ++ checkCompatibility versionMap source moduleVersion versionAttr.Expr.Range
                    awsProviderVersion)

/-- Go `checkFile`. -/
def checkFile (file : File) (awsProviderVersion : String) : Except Failure (List Issue) :=
  match file.Body with
  | none => .ok []
  | some body =>
    forEach body.Blocks fun block =>
      if block.Type ≠ "module" then .ok [] else checkModuleBlock block awsProviderVersion

/-- Go `(*AwsModuleVersionRule).Check`: the issues emitted when it returns `nil`, the
error of `GetFiles`, or a panic. -/
def Check (runner : Runner) : Except Failure (List Issue) :=
  match getAwsProviderVersion runner with
  | .error failure => .error failure
  | .ok awsProviderVersion =>
    if awsProviderVersion = "" then .ok []
    else
      match runner.GetFiles with
      | .error err => .error (.error err [])
      | .ok files => forEach files fun nf => checkFile nf.2 awsProviderVersion

end AwsModuleVersionRule

/-! ## Documents of the test suite -/

/-- The range of a quoted string literal of a test document, as the tests give it: the
file, the line, the column of the opening quote and the column after the closing quote.
The tests do not compare byte offsets, which are left 0. -/
def stringRange (filename : String) (line column : Nat) (s : String) : Range :=
  ⟨filename, ⟨line, column, 0⟩, ⟨line, column + s.length + 2, 0⟩⟩

/-- The range of a literal of six characters such as `"~> 5.0"` at column 13 of a line of
`resource.tf`, where the tests have the version of a module or of a provider block. -/
def lineRange (line : Nat) : Range :=
  ⟨"resource.tf", ⟨line, 13, 0⟩, ⟨line, 21, 0⟩⟩

/-- An attribute whose expression is a string literal at the given place. -/
def stringAttributeAt (filename : String) (line column : Nat) (s : String) : Attribute :=
  ⟨⟨.string s, false, stringRange filename line column s⟩⟩

/-- An attribute whose expression is a string literal at column 13 of a line of
`resource.tf`. -/
def stringAttribute (s : String) (line : Nat) : Attribute :=
  stringAttributeAt "resource.tf" line 13 s

/-- An attribute whose expression is a conditional that takes a `null` branch, such as
`true ? null : "x"`, on the given line: it evaluates without error to a null of the type
of the other branch (the literal `null` alone is a null of another type, the dynamic
pseudo-type). The rules do not read the range of such an expression. -/
def nullAttribute (ty : CtyType) (line : Nat) : Attribute :=
  ⟨⟨.null ty, false, lineRange line⟩⟩

/-- The runner of a test: one file `resource.tf` with the given blocks. -/
def testRunner (blocks : List Block) : Runner :=
  ⟨.ok [("resource.tf", ⟨some ⟨[], blocks⟩⟩)]⟩

/-- The block `terraform { required_providers { ... } }` with the given attributes. -/
def requiredProvidersBlock (attributes : List (String × Attribute)) : Block :=
  .mk "terraform" [] [] [.mk "required_providers" [] attributes []]

/-- An attribute `name = { source = ..., version = ... }` of a `required_providers`
block; the object starts at its opening brace on the given line and ends three lines
below. -/
def providerEntryAt (filename : String) (line : Nat) (name source version : String) :
    String × Attribute :=
  (name, ⟨⟨.object [("source", .string source), ("version", .string version)], false,
    ⟨filename, ⟨line, 8 + name.length, 0⟩, ⟨line + 3, 6, 0⟩⟩⟩⟩)

/-- An attribute `name = { source = ..., version = ... }` of a `required_providers`
block of `resource.tf`, on the given line. -/
def providerEntry (name source version : String) (line : Nat) : String × Attribute :=
  providerEntryAt "resource.tf" line name source version

/-- The block `terraform { required_providers { aws = { source = "hashicorp/aws",
version = ... } } }` at the head of a file. -/
def awsProviderBlockIn (filename version : String) : Block :=
  requiredProvidersBlock [providerEntryAt filename 4 "aws" "hashicorp/aws" version]

/-- The block `terraform { required_providers { aws = { source = "hashicorp/aws",
version = ... } } }` at the head of `resource.tf`. -/
def awsProviderBlock (version : String) : Block :=
  awsProviderBlockIn "resource.tf" version

/-- A block `module "..." { source = ..., version = ... }` with the source on the given
line and the version on the next. -/
def moduleBlockAt (filename : String) (line : Nat) (label source version : String) : Block :=
  .mk "module" [label] [("source", stringAttributeAt filename line 13 source),
    ("version", stringAttributeAt filename (line + 1) 13 version)] []

/-- A block `module "..." { source = ..., version = ... }` of `resource.tf`, after the
block that declares the provider version. -/
def moduleBlock (label source version : String) : Block :=
  moduleBlockAt "resource.tf" 12 label source version

/-- A block `module "..." { source = ... }` without a version. -/
def moduleBlockWithoutVersion (label source : String) : Block :=
  .mk "module" [label] [("source", stringAttributeAt "resource.tf" 12 12 source)] []

/-- A block `provider "..." { version = ..., region = "us-east-1" }` at the head of a
file. -/
def providerBlockIn (filename : String) (labels : List String) (version : String) : Block :=
  .mk "provider" labels [("version", stringAttributeAt filename 3 13 version),
    ("region", stringAttributeAt filename 4 13 "us-east-1")] []

/-- A block `provider "..." { version = ..., region = "us-east-1" }` at the head of
`resource.tf`. -/
def providerBlock (labels : List String) (version : String) : Block :=
  providerBlockIn "resource.tf" labels version

/-! ## Vocabulary of the properties -/

/-- A module block the Cross-Version Rule governs: its source is a string literal that is
a key of the Compatibility Table (with the given entries) and its version is a string
literal. -/
def IsKnownModule (block : Block) (sourceAttr versionAttr : Attribute)
    (source moduleVersion : String) (versionMap : List sourceVersion) : Prop :=
  block.Body.Attributes.lookup "source" = some sourceAttr ∧
  sourceAttr.Expr.HasErrors = false ∧
  sourceAttr.Expr.Value = .string source ∧
  sourceVersionMap.lookup source = some versionMap ∧
  block.Body.Attributes.lookup "version" = some versionAttr ∧
  versionAttr.Expr.HasErrors = false ∧
  versionAttr.Expr.Value = .string moduleVersion

/-- The rule emits exactly `issues` for a block: in every document set in which the
block is a top-level block of type `module` and the located provider version is
`awsProviderVersion`, `Check` is the run of the files and blocks before, then the emission
of `issues`, then the run of the blocks and files after. So when the other blocks return,
`Check` succeeds and its issues are theirs with `issues` in between, at the block's place;
when a block after it panics, `issues` are among the issues emitted before the panic; and
only a panic at a block before it keeps them from being emitted. -/
def CheckEmitsForBlock (block : Block) (awsProviderVersion : String) (issues : List Issue) :
    Prop :=
  ∀ (runner : Runner) (f1 f2 : List (String × File)) (name : String)
    (attrs : List (String × Attribute)) (b1 b2 : List Block),
    runner.GetFiles = .ok (f1 ++ (name, ⟨some ⟨attrs, b1 ++ block :: b2⟩⟩) :: f2) →
    AwsModuleVersionRule.awsVersionOfFiles
      (f1 ++ (name, (⟨some ⟨attrs, b1 ++ block :: b2⟩⟩ : File)) :: f2) =
      .ok (some awsProviderVersion) →
    block.Type = "module" →
    AwsModuleVersionRule.Check runner =
      andThen (forEach f1 fun nf => AwsModuleVersionRule.checkFile nf.2 awsProviderVersion)
        (andThen (AwsModuleVersionRule.checkFile ⟨some ⟨attrs, b1⟩⟩ awsProviderVersion)
          (andThen (.ok issues)
            (andThen (AwsModuleVersionRule.checkFile ⟨some ⟨attrs, b2⟩⟩ awsProviderVersion)
              (forEach f2 fun nf =>
                AwsModuleVersionRule.checkFile nf.2 awsProviderVersion))))

/-- The text of the diagnostic that recommends another module version. -/
def notCompatibleMessage (source : String) (moduleMajor : Int) (awsProviderVersion : String)
    (recommendedModule awsProviderMajor : Int) : String :=
  "Module " ++ source ++ " version ~> " ++ toString moduleMajor ++
    ".0 is not compatible with AWS provider version " ++ awsProviderVersion ++
    ". Use module version ~> " ++ toString recommendedModule ++
    ".0 for AWS provider ~> " ++ toString awsProviderMajor ++ ".0"

/-- The text of the diagnostic for a provider major without any mapping. -/
def noMappingMessage (source : String) (moduleMajor : Int) (awsProviderVersion : String) :
    String :=
  "Module " ++ source ++ " version ~> " ++ toString moduleMajor ++
    ".0 does not have a known compatibility mapping for AWS provider version " ++
    awsProviderVersion

/-- The version an attribute of a `required_providers` block declares: the string in the
`version` field of the object it evaluates to, when it evaluates without error to an
object with such a field. -/
def declaredVersion (attr : Attribute) : Option String :=
  if attr.Expr.HasErrors then none
  else
    match attr.Expr.Value with
    | .object fields =>
      match fields.lookup "version" with
      | some (.string v) => some v
      | _ => none
    | _ => none

/-- The top-level blocks the Format Rule looks at. -/
def isInspected (block : Block) : Bool :=
  decide (block.Type = "terraform") || decide (block.Type = "provider")

/-- The inspected top-level blocks of a file, in order. -/
def inspectedBlocks (file : File) : List Block :=
  match file.Body with
  | none => []
  | some body => body.Blocks.filter isInspected

/-- Some document declares the version `v` for `aws`: a top-level `terraform` block has a
`required_providers` block with an attribute named `aws` whose value is an object with
the string `v` in its `version` field. -/
def DeclaresAwsVersion (files : List (String × File)) (v : String) : Prop :=
  ∃ nf ∈ files, ∃ body, nf.2.Body = some body ∧
    ∃ block ∈ body.Blocks, block.Type = "terraform" ∧
      ∃ innerBlock ∈ block.Body.Blocks, innerBlock.Type = "required_providers" ∧
        ∃ attr, ("aws", attr) ∈ innerBlock.Body.Attributes ∧
          ∃ fields, attr.Expr.Value = .object fields ∧
            fields.lookup "version" = some (.string v)

/-- The two files of the test with multiple files: the provider version in
`versions.tf`, the modules in `main.tf`. -/
def multipleFiles : List (String × File) :=
  [("versions.tf", ⟨some ⟨[], [awsProviderBlockIn "versions.tf" "~> 5.0"]⟩⟩),
    ("main.tf", ⟨some ⟨[],
      [moduleBlockAt "main.tf" 3 "s3_bucket" "terraform-aws-modules/s3-bucket/aws" "~> 5.0",
        moduleBlockAt "main.tf" 8 "vpc" "terraform-aws-modules/vpc/aws" "~> 5.0"]⟩⟩)]

/-- Two runs that end the same way up to the order of the issues: both panic, or both
return and the issues of one are a permutation of the issues of the other. -/
def SameOutcome (r r' : Except Failure (List Issue)) : Prop :=
  (∃ emitted emitted', r = .error (.panic emitted) ∧ r' = .error (.panic emitted')) ∨
    ∃ issues issues', r = .ok issues ∧ r' = .ok issues' ∧ issues.Perm issues'

/-- The document of the test `multiple modules with mixed validity`. -/
def mixedModules : List Block :=
  [awsProviderBlock "~> 5.0",
    moduleBlock "s3_bucket" "terraform-aws-modules/s3-bucket/aws" "~> 4.0",
    moduleBlockAt "resource.tf" 17 "vpc" "terraform-aws-modules/vpc/aws" "~> 6.0",
    moduleBlockAt "resource.tf" 22 "lambda" "terraform-aws-modules/lambda/aws" "~> 7.0"]

/-! ## Facts about the matcher -/

theorem mem_starRun (c : CharClass) (cs : List (List Char)) (s : List Char) :
    ∀ (p : Nat) (st : MState), st ∈ starRun c cs p s ↔
      ∃ pre suf, s = pre ++ suf ∧ (∀ x ∈ pre, c.test x = true) ∧
        st = ⟨p + pre.length, suf, cs⟩ := by
  induction s with
  | nil =>
    intro p st
    simp only [starRun, List.mem_singleton]
    constructor
    · intro h
      exact ⟨[], [], rfl, by simp, by simpa using h⟩
    · rintro ⟨pre, suf, h, -, rfl⟩
      have h1 : pre = [] ∧ suf = [] := by simpa using h.symm
      simp [h1.1, h1.2]
  | cons x xs ih =>
    intro p st
    simp only [starRun, List.mem_append, List.mem_singleton]
    constructor
    · rintro (h | h)
      · split at h
        · rename_i hx
          obtain ⟨pre, suf, h1, h2, h3⟩ := (ih (p + 1) st).1 h
          refine ⟨x :: pre, suf, by simp [h1], ?_, ?_⟩
          · intro y hy
            rcases List.mem_cons.1 hy with rfl | hy
            · exact hx
            · exact h2 y hy
          · simp [h3]; omega
        · simp at h
      · exact ⟨[], x :: xs, rfl, by simp, by simpa using h⟩
    · rintro ⟨pre, suf, h1, h2, h3⟩
      cases pre with
      | nil =>
        right
        simp at h1
        simp [h3, h1]
      | cons y ys =>
        left
        simp only [List.cons_append, List.cons.injEq] at h1
        obtain ⟨rfl, rfl⟩ := h1
        rw [if_pos (h2 x (by simp))]
        refine (ih (p + 1) st).2 ⟨ys, suf, rfl, fun z hz => h2 z (by simp [hz]), ?_⟩
        simp [h3]; omega

theorem mem_run_seq (a b : Regex) (st st1 : MState) :
    st1 ∈ (Regex.seq a b).run st ↔ ∃ m, m ∈ a.run st ∧ st1 ∈ b.run m := by
  simp [Regex.run, List.mem_flatMap]

theorem mem_run_beginText (st st1 : MState) :
    st1 ∈ Regex.beginText.run st ↔ st.pos = 0 ∧ st1 = st := by
  by_cases h : st.pos = 0 <;> simp [Regex.run, h]

theorem mem_run_endText (st st1 : MState) :
    st1 ∈ Regex.endText.run st ↔ st.rest = [] ∧ st1 = st := by
  obtain ⟨p, s, cs⟩ := st
  cases s <;> simp [Regex.run]

theorem mem_run_one (c : CharClass) (st st1 : MState) :
    st1 ∈ (Regex.one c).run st ↔
      ∃ x xs, st.rest = x :: xs ∧ c.test x = true ∧ st1 = ⟨st.pos + 1, xs, st.caps⟩ := by
  obtain ⟨p, s, cs⟩ := st
  cases s with
  | nil => simp [Regex.run]
  | cons y ys =>
    by_cases h : c.test y = true
    · simp only [Regex.run, h, if_true, List.mem_singleton]
      constructor
      · intro h1; exact ⟨y, ys, rfl, h, h1⟩
      · rintro ⟨x, xs, h1, -, h2⟩
        simp only [List.cons.injEq] at h1
        obtain ⟨rfl, rfl⟩ := h1
        exact h2
    · simp only [Regex.run, h, Bool.false_eq_true, if_false, List.not_mem_nil, false_iff]
      rintro ⟨x, xs, h1, h2, -⟩
      simp only [List.cons.injEq] at h1
      obtain ⟨rfl, rfl⟩ := h1
      exact h h2

theorem mem_run_star (c : CharClass) (st st1 : MState) :
    st1 ∈ (Regex.star c).run st ↔
      ∃ pre suf, st.rest = pre ++ suf ∧ (∀ x ∈ pre, c.test x = true) ∧
        st1 = ⟨st.pos + pre.length, suf, st.caps⟩ := by
  simp only [Regex.run]
  exact mem_starRun c st.caps st.rest st.pos st1

theorem mem_run_plus (c : CharClass) (st st1 : MState) :
    st1 ∈ (Regex.plus c).run st ↔
      ∃ pre suf, pre ≠ [] ∧ st.rest = pre ++ suf ∧ (∀ x ∈ pre, c.test x = true) ∧
        st1 = ⟨st.pos + pre.length, suf, st.caps⟩ := by
  obtain ⟨p, s, cs⟩ := st
  cases s with
  | nil =>
    simp only [Regex.run, List.not_mem_nil, false_iff]
    rintro ⟨pre, suf, h0, h1, -⟩
    have : pre = [] ∧ suf = [] := by simpa using h1.symm
    exact h0 this.1
  | cons y ys =>
    simp only [Regex.run]
    constructor
    · intro h
      split at h
      · rename_i hy
        obtain ⟨pre, suf, h1, h2, h3⟩ := (mem_starRun c cs ys (p + 1) st1).1 h
        refine ⟨y :: pre, suf, by simp, by simp [h1], ?_, ?_⟩
        · intro z hz
          rcases List.mem_cons.1 hz with rfl | hz
          · exact hy
          · exact h2 z hz
        · simp [h3]; omega
      · simp at h
    · rintro ⟨pre, suf, h0, h1, h2, h3⟩
      cases pre with
      | nil => exact absurd rfl h0
      | cons z zs =>
        simp only [List.cons_append, List.cons.injEq] at h1
        obtain ⟨rfl, rfl⟩ := h1
        rw [if_pos (h2 y (by simp))]
        refine (mem_starRun c cs _ (p + 1) st1).2 ⟨zs, suf, rfl, fun w hw => h2 w (by simp [hw]), ?_⟩
        simp [h3]; omega

theorem mem_run_group (r : Regex) (st st1 : MState) :
    st1 ∈ (Regex.group r).run st ↔
      ∃ m, m ∈ r.run st ∧
        st1 = ⟨m.pos, m.rest, m.caps ++ [st.rest.take (m.pos - st.pos)]⟩ := by
  simp only [Regex.run, List.mem_map]
  constructor
  · rintro ⟨m, hm, rfl⟩; exact ⟨m, hm, rfl⟩
  · rintro ⟨m, hm, rfl⟩; exact ⟨m, hm, rfl⟩

theorem test_lit (c x : Char) : (CharClass.lit c).test x = true ↔ x = c := by
  simp [CharClass.test]

/-- What a match of `majorPattern` says about the text: it starts at offset 0, and the
text splits into the pieces of the pattern, the group holding the digits. -/
theorem majorPattern_sound (p : Nat) (s : List Char) (st1 : MState)
    (h : st1 ∈ majorPattern.run ⟨p, s, []⟩) :
    p = 0 ∧ ∃ ws1 ws2 a rest, s = ws1 ++ '~' :: '>' :: (ws2 ++ (a ++ '.' :: rest)) ∧
      AllSpace ws1 ∧ AllSpace ws2 ∧ AllDigit a ∧ a ≠ [] ∧ st1.caps = [a] := by
  unfold majorPattern at h
  rw [mem_run_seq] at h; obtain ⟨m1, h1, h⟩ := h
  obtain ⟨hp, rfl⟩ := (mem_run_beginText _ _).1 h1
  rw [mem_run_seq] at h; obtain ⟨m2, h2, h⟩ := h
  obtain ⟨ws1, s1, hs1, hws1, rfl⟩ := (mem_run_star _ _ _).1 h2
  rw [mem_run_seq] at h; obtain ⟨m3, h3, h⟩ := h
  obtain ⟨x1, s2, hs2, hx1, rfl⟩ := (mem_run_one _ _ _).1 h3
  rw [mem_run_seq] at h; obtain ⟨m4, h4, h⟩ := h
  obtain ⟨x2, s3, hs3, hx2, rfl⟩ := (mem_run_one _ _ _).1 h4
  rw [mem_run_seq] at h; obtain ⟨m5, h5, h⟩ := h
  obtain ⟨ws2, s4, hs4, hws2, rfl⟩ := (mem_run_star _ _ _).1 h5
  rw [mem_run_seq] at h; obtain ⟨m6, h6, h⟩ := h
  obtain ⟨m7, h7, rfl⟩ := (mem_run_group _ _ _).1 h6
  obtain ⟨a, s5, ha0, hs5, ha, rfl⟩ := (mem_run_plus _ _ _).1 h7
  obtain ⟨x3, s6, hs6, hx3, rfl⟩ := (mem_run_one _ _ _).1 h
  rw [test_lit] at hx1 hx2 hx3
  subst hx1 hx2 hx3
  simp only at hs1 hs2 hs3 hs4 hs5 hs6 hp
  subst hs6 hs5 hs4 hs3 hs2 hs1
  refine ⟨hp, ws1, ws2, a, s6, rfl, hws1, hws2, ha, ha0, ?_⟩
  simp

theorem run_seq_ne_nil {a b : Regex} {st m : MState} (h1 : m ∈ a.run st)
    (h2 : b.run m ≠ []) : (Regex.seq a b).run st ≠ [] := by
  obtain ⟨st1, h3⟩ := List.exists_mem_of_ne_nil _ h2
  exact List.ne_nil_of_mem ((mem_run_seq a b st st1).2 ⟨m, h1, h3⟩)

/-- Every text of the shape of `majorPattern` is matched at offset 0. -/
theorem majorPattern_complete (ws1 ws2 a rest : List Char)
    (hws1 : AllSpace ws1) (hws2 : AllSpace ws2) (ha : AllDigit a) (ha0 : a ≠ []) :
    majorPattern.run ⟨0, ws1 ++ '~' :: '>' :: (ws2 ++ (a ++ '.' :: rest)), []⟩ ≠ [] := by
  unfold majorPattern
  apply run_seq_ne_nil ((mem_run_beginText _ _).2 ⟨rfl, rfl⟩)
  apply run_seq_ne_nil ((mem_run_star .space _ _).2 ⟨ws1, _, rfl, hws1, rfl⟩)
  apply run_seq_ne_nil ((mem_run_one _ _ _).2 ⟨'~', _, rfl, by decide, rfl⟩)
  apply run_seq_ne_nil ((mem_run_one _ _ _).2 ⟨'>', _, rfl, by decide, rfl⟩)
  apply run_seq_ne_nil ((mem_run_star .space _ _).2 ⟨ws2, _, rfl, hws2, rfl⟩)
  apply run_seq_ne_nil ((mem_run_group _ _ _).2
    ⟨_, (mem_run_plus .digit _ _).2 ⟨a, _, ha0, rfl, ha, rfl⟩, rfl⟩)
  exact List.ne_nil_of_mem ((mem_run_one _ _ _).2 ⟨'.', rest, rfl, by decide, rfl⟩)

/-- What a match of `validPattern` says about the text. -/
theorem validPattern_sound (p : Nat) (s : List Char) (st1 : MState)
    (h : st1 ∈ validPattern.run ⟨p, s, []⟩) :
    p = 0 ∧ ∃ ws1 ws2 a b ws3, s = ws1 ++ '~' :: '>' :: (ws2 ++ (a ++ '.' :: (b ++ ws3))) ∧
      AllSpace ws1 ∧ AllSpace ws2 ∧ AllDigit a ∧ a ≠ [] ∧ AllDigit b ∧ b ≠ [] ∧
      AllSpace ws3 := by
  unfold validPattern at h
  rw [mem_run_seq] at h; obtain ⟨m1, h1, h⟩ := h
  obtain ⟨hp, rfl⟩ := (mem_run_beginText _ _).1 h1
  rw [mem_run_seq] at h; obtain ⟨m2, h2, h⟩ := h
  obtain ⟨ws1, s1, hs1, hws1, rfl⟩ := (mem_run_star _ _ _).1 h2
  rw [mem_run_seq] at h; obtain ⟨m3, h3, h⟩ := h
  obtain ⟨x1, s2, hs2, hx1, rfl⟩ := (mem_run_one _ _ _).1 h3
  rw [mem_run_seq] at h; obtain ⟨m4, h4, h⟩ := h
  obtain ⟨x2, s3, hs3, hx2, rfl⟩ := (mem_run_one _ _ _).1 h4
  rw [mem_run_seq] at h; obtain ⟨m5, h5, h⟩ := h
  obtain ⟨ws2, s4, hs4, hws2, rfl⟩ := (mem_run_star _ _ _).1 h5
  rw [mem_run_seq] at h; obtain ⟨m6, h6, h⟩ := h
  obtain ⟨m7, h7, rfl⟩ := (mem_run_group _ _ _).1 h6
  obtain ⟨a, s5, ha0, hs5, ha, rfl⟩ := (mem_run_plus _ _ _).1 h7
  rw [mem_run_seq] at h; obtain ⟨m8, h8, h⟩ := h
  obtain ⟨x3, s6, hs6, hx3, rfl⟩ := (mem_run_one _ _ _).1 h8
  rw [mem_run_seq] at h; obtain ⟨m9, h9, h⟩ := h
  obtain ⟨m10, h10, rfl⟩ := (mem_run_group _ _ _).1 h9
  obtain ⟨b, s7, hb0, hs7, hb, rfl⟩ := (mem_run_plus _ _ _).1 h10
  rw [mem_run_seq] at h; obtain ⟨m11, h11, h⟩ := h
  obtain ⟨ws3, s8, hs8, hws3, rfl⟩ := (mem_run_star _ _ _).1 h11
  obtain ⟨hs9, -⟩ := (mem_run_endText _ _).1 h
  rw [test_lit] at hx1 hx2 hx3
  subst hx1 hx2 hx3
  simp only at hs1 hs2 hs3 hs4 hs5 hs6 hs7 hs8 hs9 hp
  subst hs9 hs8 hs7 hs6 hs5 hs4 hs3 hs2 hs1
  exact ⟨hp, ws1, ws2, a, b, ws3, by simp, hws1, hws2, ha, ha0, hb, hb0, hws3⟩

/-- Every text of the shape of `validPattern` is matched at offset 0. -/
theorem validPattern_complete (ws1 ws2 a b ws3 : List Char)
    (hws1 : AllSpace ws1) (hws2 : AllSpace ws2) (ha : AllDigit a) (ha0 : a ≠ [])
    (hb : AllDigit b) (hb0 : b ≠ []) (hws3 : AllSpace ws3) :
    validPattern.run ⟨0, ws1 ++ '~' :: '>' :: (ws2 ++ (a ++ '.' :: (b ++ ws3))), []⟩ ≠ [] := by
  unfold validPattern
  apply run_seq_ne_nil ((mem_run_beginText _ _).2 ⟨rfl, rfl⟩)
  apply run_seq_ne_nil ((mem_run_star .space _ _).2 ⟨ws1, _, rfl, hws1, rfl⟩)
  apply run_seq_ne_nil ((mem_run_one _ _ _).2 ⟨'~', _, rfl, by decide, rfl⟩)
  apply run_seq_ne_nil ((mem_run_one _ _ _).2 ⟨'>', _, rfl, by decide, rfl⟩)
  apply run_seq_ne_nil ((mem_run_star .space _ _).2 ⟨ws2, _, rfl, hws2, rfl⟩)
  apply run_seq_ne_nil ((mem_run_group _ _ _).2
    ⟨_, (mem_run_plus .digit _ _).2 ⟨a, _, ha0, rfl, ha, rfl⟩, rfl⟩)
  apply run_seq_ne_nil ((mem_run_one _ _ _).2 ⟨'.', _, rfl, by decide, rfl⟩)
  apply run_seq_ne_nil ((mem_run_group _ _ _).2
    ⟨_, (mem_run_plus .digit _ _).2 ⟨b, _, hb0, rfl, hb, rfl⟩, rfl⟩)
  apply run_seq_ne_nil ((mem_run_star .space _ _).2 ⟨ws3, [], by simp, hws3, rfl⟩)
  exact List.ne_nil_of_mem ((mem_run_endText _ _).2 ⟨rfl, rfl⟩)

/-- An expression that begins with `^` matches at no offset but 0. -/
theorem search_beginText_succ (r : Regex) (s : List Char) :
    ∀ p : Nat, (Regex.seq .beginText r).search (p + 1) s = none := by
  have hrun : ∀ (p : Nat) (t : List Char),
      (Regex.seq .beginText r).run ⟨p + 1, t, []⟩ = [] := by
    intro p t
    simp [Regex.run]
  induction s with
  | nil => intro p; simp only [Regex.search, hrun, List.head?_nil]
  | cons x xs ih => intro p; simp only [Regex.search, hrun, List.head?_nil, ih]

/-- Searching for an expression that begins with `^` is matching it at offset 0. -/
theorem search_beginText_isSome (r : Regex) (s : List Char) :
    ((Regex.seq .beginText r).search 0 s).isSome = true ↔
      (Regex.seq .beginText r).run ⟨0, s, []⟩ ≠ [] := by
  cases s with
  | nil =>
    simp only [Regex.search]
    cases h : ((Regex.seq .beginText r).run ⟨0, [], []⟩) <;> simp
  | cons x xs =>
    simp only [Regex.search]
    cases h : ((Regex.seq .beginText r).run ⟨0, x :: xs, []⟩) with
    | nil => simp [search_beginText_succ]
    | cons st sts => simp

/-- `MatchString` on `validPattern` holds exactly for the texts that split into the
pieces of the pattern. -/
theorem matchString_validPattern_iff (s : String) :
    MatchString validPattern s = true ↔
      ∃ ws1 ws2 a b ws3, s.data = ws1 ++ '~' :: '>' :: (ws2 ++ (a ++ '.' :: (b ++ ws3))) ∧
        AllSpace ws1 ∧ AllSpace ws2 ∧ AllDigit a ∧ a ≠ [] ∧ AllDigit b ∧ b ≠ [] ∧
        AllSpace ws3 := by
  unfold MatchString
  have h := search_beginText_isSome
    (.seq (.star .space) <| .seq (.one (.lit '~')) <| .seq (.one (.lit '>')) <|
      .seq (.star .space) <| .seq (.group (.plus .digit)) <| .seq (.one (.lit '.')) <|
      .seq (.group (.plus .digit)) <| .seq (.star .space) .endText) s.data
  change (validPattern.search 0 s.data).isSome = true ↔ validPattern.run ⟨0, s.data, []⟩ ≠ [] at h
  rw [h]
  constructor
  · intro hne
    obtain ⟨st1, hst⟩ := List.exists_mem_of_ne_nil _ hne
    exact (validPattern_sound 0 s.data st1 hst).2
  · rintro ⟨ws1, ws2, a, b, ws3, hs, h1, h2, h3, h4, h5, h6, h7⟩
    rw [hs]
    exact validPattern_complete ws1 ws2 a b ws3 h1 h2 h3 h4 h5 h6 h7

/-! ## Whitespace, digits and the shape of a constraint -/

theorem isSpace_of_isDigit {c : Char} (h : isDigit c = true) : isSpace c = false := by
  simp only [isDigit, Bool.and_eq_true, decide_eq_true_eq] at h
  simp only [isSpace, Bool.or_eq_false_iff, beq_eq_false_iff_ne, ne_eq]
  omega

theorem isDigit_of_isSpace {c : Char} (h : isSpace c = true) : isDigit c = false := by
  cases hd : isDigit c
  · rfl
  · rw [isSpace_of_isDigit hd] at h; exact absurd h (by decide)

theorem takeWhile_isDigit_append_space (b ws : List Char) (hb : AllDigit b)
    (hws : AllSpace ws) : (b ++ ws).takeWhile isDigit = b := by
  rw [List.takeWhile_append_of_pos hb]
  cases ws with
  | nil => simp
  | cons x xs => simp [List.takeWhile, isDigit_of_isSpace (hws x (by simp))]

theorem dropWhile_isDigit_append_space (b ws : List Char) (hb : AllDigit b)
    (hws : AllSpace ws) : (b ++ ws).dropWhile isDigit = ws := by
  rw [List.dropWhile_append_of_pos hb]
  cases ws with
  | nil => simp
  | cons x xs => simp [List.dropWhile, isDigit_of_isSpace (hws x (by simp))]

/-- The text that follows the operator and its whitespace, for a text that starts with
the operator and a number. -/
theorem afterOperator_shape (ws1 ws2 a rest : List Char) (hws1 : AllSpace ws1)
    (hws2 : AllSpace ws2) (ha : AllDigit a) (ha0 : a ≠ []) :
    afterOperator (ws1 ++ '~' :: '>' :: (ws2 ++ (a ++ rest))) = a ++ rest := by
  unfold afterOperator
  rw [List.dropWhile_append_of_pos hws1]
  have h1 : List.dropWhile isSpace ('~' :: '>' :: (ws2 ++ (a ++ rest))) =
      '~' :: '>' :: (ws2 ++ (a ++ rest)) := by
    rw [List.dropWhile_cons_of_neg (by decide)]
  rw [h1]
  simp only [List.drop_succ_cons, List.drop_zero]
  rw [List.dropWhile_append_of_pos hws2]
  cases a with
  | nil => exact absurd rfl ha0
  | cons x xs =>
    have hx : isSpace x = false := isSpace_of_isDigit (ha x (by simp))
    simp [List.dropWhile, hx]

/-- The digits of the first component, for a text that starts with the operator, a
number and a character that is not a digit. -/
theorem majorDigits_shape (ws1 ws2 a : List Char) (c : Char) (rest : List Char)
    (hws1 : AllSpace ws1) (hws2 : AllSpace ws2) (ha : AllDigit a) (ha0 : a ≠ [])
    (hc : isDigit c = false) :
    majorDigits (ws1 ++ '~' :: '>' :: (ws2 ++ (a ++ c :: rest))) = a := by
  unfold majorDigits
  rw [afterOperator_shape ws1 ws2 a (c :: rest) hws1 hws2 ha ha0]
  rw [List.takeWhile_append_of_pos ha]
  simp [List.takeWhile, hc]

theorem trimSpace_shape (ws1 core ws3 : List Char) (x y : Char) (mid : List Char)
    (hws1 : AllSpace ws1) (hws3 : AllSpace ws3) (hx : isSpace x = false)
    (hy : isSpace y = false) (hcore : core = x :: (mid ++ [y])) :
    trimSpace (ws1 ++ (core ++ ws3)) = core := by
  unfold trimSpace
  rw [List.dropWhile_append_of_pos hws1, hcore]
  have h1 : List.dropWhile isSpace (x :: (mid ++ [y]) ++ ws3) = x :: (mid ++ [y]) ++ ws3 := by
    simp [List.dropWhile, hx]
  rw [h1]
  have h2 : (x :: (mid ++ [y]) ++ ws3).reverse = ws3.reverse ++ (y :: (mid.reverse ++ [x])) := by
    simp
  rw [h2, List.dropWhile_append_of_pos (by
    intro z hz; exact hws3 z (List.mem_reverse.1 hz))]
  simp [List.dropWhile, hy]

theorem trimSpace_split (s : List Char) :
    ∃ ws1 ws3, AllSpace ws1 ∧ AllSpace ws3 ∧ s = ws1 ++ (trimSpace s ++ ws3) := by
  refine ⟨s.takeWhile isSpace, (((s.dropWhile isSpace).reverse).takeWhile isSpace).reverse,
    ?_, ?_, ?_⟩
  · intro x hx; exact List.mem_takeWhile_imp hx
  · intro x hx; exact List.mem_takeWhile_imp (List.mem_reverse.1 hx)
  · unfold trimSpace
    rw [← List.reverse_append, List.takeWhile_append_dropWhile, List.reverse_reverse,
      List.takeWhile_append_dropWhile]

theorem digits_split (a : List Char) (c : Char) (rest : List Char) (ha : AllDigit a)
    (hc : isDigit c = false) :
    (a ++ c :: rest).takeWhile isDigit = a ∧ (a ++ c :: rest).dropWhile isDigit = c :: rest := by
  rw [List.takeWhile_append_of_pos ha, List.dropWhile_append_of_pos ha]
  simp [List.takeWhile, List.dropWhile, hc]

/-- The accepted texts are exactly the well-formed ones. -/
theorem matchString_validPattern_iff_wellFormed (raw : String) :
    MatchString validPattern raw = true ↔ WellFormed raw := by
  rw [matchString_validPattern_iff]
  constructor
  · rintro ⟨ws1, ws2, a, b, ws3, hs, h1, h2, h3, h4, h5, h6, h7⟩
    refine ⟨ws2, a, b, ?_, h2, h3, h4, h5, h6⟩
    rcases List.eq_nil_or_concat b with hb | ⟨b1, y, hb⟩
    · exact absurd hb h6
    · have hy : isSpace y = false := isSpace_of_isDigit (h5 y (by simp [hb]))
      have hcore : '~' :: '>' :: (ws2 ++ (a ++ '.' :: b)) =
          '~' :: (('>' :: (ws2 ++ (a ++ '.' :: b1))) ++ [y]) := by
        simp [hb]
      have hs2 : raw.data = ws1 ++ ('~' :: '>' :: (ws2 ++ (a ++ '.' :: b)) ++ ws3) := by
        simp [hs]
      rw [hs2]
      exact trimSpace_shape ws1 _ ws3 '~' y _ h1 h7 (by decide) hy hcore
  · rintro ⟨ws2, a, b, hs, h2, h3, h4, h5, h6⟩
    obtain ⟨ws1, ws3, h1, h7, hsplit⟩ := trimSpace_split raw.data
    refine ⟨ws1, ws2, a, b, ws3, ?_, h1, h2, h3, h4, h5, h6, h7⟩
    rw [hs] at hsplit
    simpa using hsplit

theorem checkVersionConstraint_eq (version : String) (rng : Range) (name : String) :
    RightmostOperatorRule.checkVersionConstraint version rng name =
      if ValidateFormat version = true then []
      else [⟨"rightmost_operator_rule", formatMessage name version, rng⟩] := by
  unfold RightmostOperatorRule.checkVersionConstraint ValidateFormat
  cases MatchString validPattern version <;> rfl

theorem checkRightmostOperator_eq (version : String) (rng : Range) (name : String) :
    AwsModuleVersionRule.checkRightmostOperator version rng name =
      if ValidateFormat version = true then []
      else [⟨"aws_module_version_rule", formatMessage name version, rng⟩] := by
  unfold AwsModuleVersionRule.checkRightmostOperator ValidateFormat
  cases MatchString validPattern version <;> rfl

/-- C1. `ValidateFormat`, the test made by `checkVersionConstraint` (Format Rule) and by
`checkRightmostOperator` (Cross-Version Rule), accepts a text exactly when the text with
its surrounding whitespace removed is `~>`, optional whitespace, one or more digits, a
dot and one or more digits; each function emits no issue for an accepted text and its
one format issue for every other text. -/
theorem validateFormat_iff_wellFormed (raw : String) (rng : Range) (name : String) :
    (ValidateFormat raw = true ↔ WellFormed raw) ∧
    (RightmostOperatorRule.checkVersionConstraint raw rng name = [] ↔ WellFormed raw) ∧
    (AwsModuleVersionRule.checkRightmostOperator raw rng name = [] ↔ WellFormed raw) ∧
    (RightmostOperatorRule.checkVersionConstraint raw rng name =
        [⟨"rightmost_operator_rule", formatMessage name raw, rng⟩] ↔ ¬ WellFormed raw) ∧
    (AwsModuleVersionRule.checkRightmostOperator raw rng name =
        [⟨"aws_module_version_rule", formatMessage name raw, rng⟩] ↔ ¬ WellFormed raw) := by
  have h : ValidateFormat raw = true ↔ WellFormed raw :=
    matchString_validPattern_iff_wellFormed raw
  rw [checkVersionConstraint_eq, checkRightmostOperator_eq]
  by_cases hv : ValidateFormat raw = true
  · have hw := h.1 hv
    simp [hv, hw]
  · have hw : ¬ WellFormed raw := fun hw => hv (h.2 hw)
    simp [hv, hw]

/-- C2. Every text made of whitespace, `~>`, whitespace, a run of digits, a dot, a run of
digits and whitespace passes `ValidateFormat`, and neither copy of the format check emits
an issue for it. -/
theorem validateFormat_accepts (raw : String) (ws1 ws2 a b ws3 : List Char) (rng : Range)
    (name : String)
    (hraw : raw.data = ws1 ++ '~' :: '>' :: (ws2 ++ (a ++ '.' :: (b ++ ws3))))
    (hws1 : AllSpace ws1) (hws2 : AllSpace ws2) (ha : AllDigit a) (ha0 : a ≠ [])
    (hb : AllDigit b) (hb0 : b ≠ []) (hws3 : AllSpace ws3) :
    ValidateFormat raw = true ∧
    RightmostOperatorRule.checkVersionConstraint raw rng name = [] ∧
    AwsModuleVersionRule.checkRightmostOperator raw rng name = [] := by
  have hv : ValidateFormat raw = true :=
    (matchString_validPattern_iff raw).2 ⟨ws1, ws2, a, b, ws3, hraw, hws1, hws2, ha, ha0, hb,
      hb0, hws3⟩
  rw [checkVersionConstraint_eq, checkRightmostOperator_eq]
  simp [hv]

/-- C2 at `"~>  5.0"` (two spaces) and `"~> 4.1"`. -/
theorem validateFormat_accepts_witness :
    ValidateFormat "~>  5.0" = true ∧ ValidateFormat "~> 4.1" = true :=
  ⟨(validateFormat_accepts "~>  5.0" [] [' ', ' '] ['5'] ['0'] []
      ⟨"main.tf", ⟨1, 1, 0⟩, ⟨1, 9, 8⟩⟩ "Provider aws" rfl (by decide) (by decide) (by decide)
      (by decide) (by decide) (by decide) (by decide)).1,
   (validateFormat_accepts "~> 4.1" [] [' '] ['4'] ['1'] []
      ⟨"main.tf", ⟨1, 1, 0⟩, ⟨1, 9, 8⟩⟩ "Provider aws" rfl (by decide) (by decide) (by decide)
      (by decide) (by decide) (by decide) (by decide)).1⟩

/-- C3. `ValidateFormat` rejects every constraint with a third component (whatever follows
a second dot) and every text whose first two characters after the leading whitespace are
not `~>`; both copies of the format check then emit their issue. -/
theorem validateFormat_rejects (raw : String) (rng : Range) (name : String)
    (h : (∃ ws1 ws2 a b rest, raw.data = ws1 ++ '~' :: '>' :: (ws2 ++ (a ++ '.' :: (b ++ '.' :: rest))) ∧
            AllSpace ws1 ∧ AllSpace ws2 ∧ AllDigit a ∧ a ≠ [] ∧ AllDigit b) ∨
         (raw.data.dropWhile isSpace).take 2 ≠ ['~', '>']) :
    ValidateFormat raw = false ∧
    RightmostOperatorRule.checkVersionConstraint raw rng name =
      [⟨"rightmost_operator_rule", formatMessage name raw, rng⟩] ∧
    AwsModuleVersionRule.checkRightmostOperator raw rng name =
      [⟨"aws_module_version_rule", formatMessage name raw, rng⟩] := by
  have hv : ValidateFormat raw = false := by
    cases hval : ValidateFormat raw
    · rfl
    · exfalso
      obtain ⟨v1, v2, a1, b1, v3, hs, h1, h2, h3, h4, h5, h6, h7⟩ :=
        (matchString_validPattern_iff raw).1 hval
      rcases h with ⟨ws1, ws2, a, b, rest, hraw, g1, g2, g3, g4, g5⟩ | h
      · have e1 := afterOperator_shape ws1 ws2 a ('.' :: (b ++ '.' :: rest)) g1 g2 g3 g4
        have e2 := afterOperator_shape v1 v2 a1 ('.' :: (b1 ++ v3)) h1 h2 h3 h4
        rw [← hraw] at e1
        rw [← hs, e1] at e2
        have d1 := (digits_split a '.' (b ++ '.' :: rest) g3 (by decide)).2
        have d2 := (digits_split a1 '.' (b1 ++ v3) h3 (by decide)).2
        rw [e2, d2] at d1
        have e3 : b1 ++ v3 = b ++ '.' :: rest := by simpa using d1
        have d3 := (digits_split b '.' rest g5 (by decide)).2
        rw [← e3, dropWhile_isDigit_append_space b1 v3 h5 h7] at d3
        have := h7 '.' (by simp [d3])
        exact absurd this (by decide)
      · apply h
        rw [hs, List.dropWhile_append_of_pos h1]
        rw [List.dropWhile_cons_of_neg (by decide)]
        rfl
  rw [checkVersionConstraint_eq, checkRightmostOperator_eq]
  simp [hv]

/-- C3 at `"~> 4.1.2"`, `">= 4.0"`, `"4.0.0"` and `"3.10.0"`. -/
theorem validateFormat_rejects_witness :
    ValidateFormat "~> 4.1.2" = false ∧ ValidateFormat ">= 4.0" = false ∧
    ValidateFormat "4.0.0" = false ∧ ValidateFormat "3.10.0" = false :=
  ⟨(validateFormat_rejects "~> 4.1.2" ⟨"main.tf", ⟨1, 1, 0⟩, ⟨1, 9, 8⟩⟩ "Provider aws"
      (Or.inl ⟨[], [' '], ['4'], ['1'], ['2'], rfl, by decide, by decide, by decide,
        by decide, by decide⟩)).1,
   (validateFormat_rejects ">= 4.0" ⟨"main.tf", ⟨1, 1, 0⟩, ⟨1, 9, 8⟩⟩ "Provider aws"
      (Or.inr (by decide))).1,
   (validateFormat_rejects "4.0.0" ⟨"main.tf", ⟨1, 1, 0⟩, ⟨1, 9, 8⟩⟩ "Provider aws"
      (Or.inr (by decide))).1,
   (validateFormat_rejects "3.10.0" ⟨"main.tf", ⟨1, 1, 0⟩, ⟨1, 9, 8⟩⟩ "Provider aws"
      (Or.inr (by decide))).1⟩

/-! ## Extraction of the major version -/

theorem majorShape_digits {s ws1 ws2 a rest : List Char} (h : MajorShape s ws1 ws2 a rest) :
    majorDigits s = a := by
  obtain ⟨hs, h1, h2, h3, h4⟩ := h
  rw [hs]
  exact majorDigits_shape ws1 ws2 a '.' rest h1 h2 h3 h4 (by decide)

/-- Searching for an expression that begins with `^`: the preferred match at offset 0. -/
theorem search_beginText_zero (r : Regex) (s : List Char) :
    (Regex.seq .beginText r).search 0 s =
      ((Regex.seq .beginText r).run ⟨0, s, []⟩).head?.map
        fun st => s.take (st.pos - 0) :: st.caps := by
  cases s with
  | nil =>
    simp only [Regex.search]
    cases ((Regex.seq .beginText r).run ⟨0, [], []⟩).head? <;> simp
  | cons x xs =>
    simp only [Regex.search]
    cases ((Regex.seq .beginText r).run ⟨0, x :: xs, []⟩).head? with
    | none => simp [search_beginText_succ]
    | some st => simp

theorem search_majorPattern (s : List Char) :
    majorPattern.search 0 s =
      (majorPattern.run ⟨0, s, []⟩).head?.map fun st => s.take (st.pos - 0) :: st.caps :=
  search_beginText_zero _ s

/-- What `FindStringSubmatch` returns for `majorPattern` on a text of its shape: the
match and the digits of the group. -/
theorem findStringSubmatch_majorPattern (s : String) (ws1 ws2 a rest : List Char)
    (h : MajorShape s.data ws1 ws2 a rest) :
    ∃ whole, FindStringSubmatch majorPattern s = [whole, String.mk a] := by
  obtain ⟨hs, h1, h2, h3, h4⟩ := h
  have hne := majorPattern_complete ws1 ws2 a rest h1 h2 h3 h4
  rw [← hs] at hne
  unfold FindStringSubmatch
  rw [search_majorPattern]
  cases hrun : majorPattern.run ⟨0, s.data, []⟩ with
  | nil => exact absurd hrun hne
  | cons st sts =>
    have hst : st ∈ majorPattern.run ⟨0, s.data, []⟩ := by rw [hrun]; simp
    obtain ⟨-, v1, v2, a1, r1, g0, g1, g2, g3, g4, hcaps⟩ := majorPattern_sound 0 s.data st hst
    have e1 : majorDigits s.data = a1 := majorShape_digits ⟨g0, g1, g2, g3, g4⟩
    have e2 : majorDigits s.data = a := majorShape_digits ⟨hs, h1, h2, h3, h4⟩
    rw [e2] at e1
    subst e1
    exact ⟨String.mk (s.data.take (st.pos - 0)), by simp [hcaps]⟩

theorem findStringSubmatch_majorPattern_none (s : String)
    (h : ¬ ∃ ws1 ws2 a rest, MajorShape s.data ws1 ws2 a rest) :
    FindStringSubmatch majorPattern s = [] := by
  unfold FindStringSubmatch
  rw [search_majorPattern]
  cases hrun : majorPattern.run ⟨0, s.data, []⟩ with
  | nil => simp
  | cons st sts =>
    exfalso
    apply h
    have hst : st ∈ majorPattern.run ⟨0, s.data, []⟩ := by rw [hrun]; simp
    obtain ⟨-, v1, v2, a1, r1, g0, g1, g2, g3, g4, -⟩ := majorPattern_sound 0 s.data st hst
    exact ⟨v1, v2, a1, r1, g0, g1, g2, g3, g4⟩

theorem sscanfInt_digits (a : List Char) (ha : AllDigit a) (ha0 : a ≠ []) :
    sscanfInt (String.mk a) =
      if decimalValue a ≤ maxInt then some (Int.ofNat (decimalValue a)) else none := by
  unfold sscanfInt
  have h1 : List.takeWhile isDigit a = a := by
    have := takeWhile_isDigit_append_space a [] ha (by intro x hx; simp at hx)
    simpa using this
  simp only [h1]
  cases a with
  | nil => exact absurd rfl ha0
  | cons x xs => simp

/-- The value of `extractMajorVersion` on a text of the shape of its pattern. -/
theorem extractMajorVersion_of_shape (s : String) (ws1 ws2 a rest : List Char)
    (h : MajorShape s.data ws1 ws2 a rest) :
    extractMajorVersion s =
      if decimalValue a ≤ maxInt then Int.ofNat (decimalValue a) else -1 := by
  obtain ⟨whole, hfind⟩ := findStringSubmatch_majorPattern s ws1 ws2 a rest h
  unfold extractMajorVersion
  rw [hfind]
  simp only
  rw [sscanfInt_digits a h.2.2.2.1 h.2.2.2.2]
  by_cases hle : decimalValue a ≤ maxInt
  · rw [if_pos hle, if_pos hle]
  · rw [if_neg hle, if_neg hle]

/-- The value of `extractMajorVersion` on every other text. -/
theorem extractMajorVersion_of_not_shape (s : String)
    (h : ¬ ∃ ws1 ws2 a rest, MajorShape s.data ws1 ws2 a rest) :
    extractMajorVersion s = -1 := by
  unfold extractMajorVersion
  rw [findStringSubmatch_majorPattern_none s h]

theorem extractMajorVersion_range (s : String) :
    extractMajorVersion s = -1 ∨ 0 ≤ extractMajorVersion s := by
  by_cases h : ∃ ws1 ws2 a rest, MajorShape s.data ws1 ws2 a rest
  · obtain ⟨ws1, ws2, a, rest, h⟩ := h
    rw [extractMajorVersion_of_shape s ws1 ws2 a rest h]
    split
    · right; exact Int.ofNat_nonneg _
    · left; rfl
  · left; exact extractMajorVersion_of_not_shape s h

/-- C4 fails as stated: the text starts with `~>`, a space, an integer and a dot, and
`extractMajorVersion` reports failure, because the integer is `2 ^ 63` and does not fit an
`int`. -/
theorem extractMajorVersion_overflow_patch :
    MajorShape "~> 9223372036854775808.1.2".data [] [' '] "9223372036854775808".data
      "1.2".data ∧
    decimalValue "9223372036854775808".data = 2 ^ 63 ∧
    extractMajorVersion "~> 9223372036854775808.1.2" = -1 :=
  ⟨⟨rfl, by decide, by decide, by decide, by decide⟩, by decide, by decide⟩

/-- C4, amended. On every text that starts with (optional whitespace,) `~>`, whitespace, a
run of digits and a dot, whatever follows, `extractMajorVersion` returns the value of the
digits when it is at most `2 ^ 63 - 1`, and `-1` when it is larger; every result is `-1`
or at least 0; the result is `-1` for every text that does not start with `~>` followed
by a number; and `"~> 4.1.2"` gives 4, `">= 4.0"` gives `-1`. -/
theorem extractMajorVersion_spec :
    (∀ (s : String) (ws1 ws2 a rest : List Char), MajorShape s.data ws1 ws2 a rest →
      decimalValue a ≤ maxInt → extractMajorVersion s = Int.ofNat (decimalValue a)) ∧
    (∀ (s : String) (ws1 ws2 a rest : List Char), MajorShape s.data ws1 ws2 a rest →
      maxInt < decimalValue a → extractMajorVersion s = -1) ∧
    (∀ s : String, extractMajorVersion s = -1 ∨ 0 ≤ extractMajorVersion s) ∧
    (∀ s : String,
      (¬ ∃ ws1 ws2 a rest, s.data = ws1 ++ '~' :: '>' :: (ws2 ++ (a ++ rest)) ∧
        AllSpace ws1 ∧ AllSpace ws2 ∧ AllDigit a ∧ a ≠ []) →
      extractMajorVersion s = -1) ∧
    extractMajorVersion "~> 4.1.2" = 4 ∧ extractMajorVersion ">= 4.0" = -1 := by
  refine ⟨?_, ?_, extractMajorVersion_range, ?_, by decide, by decide⟩
  · intro s ws1 ws2 a rest h hle
    rw [extractMajorVersion_of_shape s ws1 ws2 a rest h, if_pos hle]
  · intro s ws1 ws2 a rest h hlt
    rw [extractMajorVersion_of_shape s ws1 ws2 a rest h, if_neg (Nat.not_le.2 hlt)]
  · intro s h
    apply extractMajorVersion_of_not_shape
    rintro ⟨ws1, ws2, a, rest, hs, h1, h2, h3, h4⟩
    exact h ⟨ws1, ws2, a, '.' :: rest, hs, h1, h2, h3, h4⟩

/-- C4, amended, at `"  ~>  12.34.56"`: the major version is 12. -/
theorem extractMajorVersion_spec_witness : extractMajorVersion "  ~>  12.34.56" = 12 :=
  extractMajorVersion_spec.1 "  ~>  12.34.56" [' ', ' '] [' ', ' '] ['1', '2'] "34.56".data
    ⟨rfl, by decide, by decide, by decide, by decide⟩ (by decide)

/-- C5 fails as stated: `ValidateFormat` accepts the text and `extractMajorVersion`
reports failure, the first component being `2 ^ 63`. -/
theorem validateFormat_accepts_extract_fails :
    ValidateFormat "~> 9223372036854775808.0" = true ∧
    decimalValue (majorDigits "~> 9223372036854775808.0".data) = 2 ^ 63 ∧
    extractMajorVersion "~> 9223372036854775808.0" = -1 :=
  ⟨by decide, by decide, by decide⟩

/-- C5, amended. For every text that `ValidateFormat` accepts and whose first integer
component is at most `2 ^ 63 - 1`, `extractMajorVersion` succeeds (its result is not the
sentinel) and returns the value of that component, the digits between the operator and
the dot. -/
theorem extractMajorVersion_of_valid (s : String) (hv : ValidateFormat s = true)
    (hle : decimalValue (majorDigits s.data) ≤ maxInt) :
    extractMajorVersion s = Int.ofNat (decimalValue (majorDigits s.data)) ∧
    extractMajorVersion s ≠ -1 ∧
    ∃ ws1 ws2 b ws3, s.data =
        ws1 ++ '~' :: '>' :: (ws2 ++ (majorDigits s.data ++ '.' :: (b ++ ws3))) ∧
      AllSpace ws1 ∧ AllSpace ws2 ∧ AllDigit (majorDigits s.data) ∧ majorDigits s.data ≠ [] ∧
      AllDigit b ∧ b ≠ [] ∧ AllSpace ws3 := by
  obtain ⟨ws1, ws2, a, b, ws3, hs, h1, h2, h3, h4, h5, h6, h7⟩ :=
    (matchString_validPattern_iff s).1 hv
  have hshape : MajorShape s.data ws1 ws2 a (b ++ ws3) := ⟨hs, h1, h2, h3, h4⟩
  have hd : majorDigits s.data = a := majorShape_digits hshape
  rw [hd] at hle ⊢
  have he := extractMajorVersion_of_shape s ws1 ws2 a (b ++ ws3) hshape
  rw [if_pos hle] at he
  refine ⟨he, ?_, ws1, ws2, b, ws3, hs, h1, h2, h3, h4, h5, h6, h7⟩
  rw [he]
  intro h
  have h0 : (0 : Int) ≤ Int.ofNat (decimalValue a) := Int.ofNat_nonneg _
  rw [h] at h0
  exact absurd h0 (by decide)

/-- C5, amended, at `"~> 4.1"`: accepted, and the major version is 4. -/
theorem extractMajorVersion_of_valid_witness : extractMajorVersion "~> 4.1" = 4 :=
  (extractMajorVersion_of_valid "~> 4.1" (by decide) (by decide)).1

/-! ## The Compatibility Table -/

theorem compatibleLoop_iff (p m : Int) (versionMap : List sourceVersion) :
    compatibleLoop p m versionMap = true ↔
      ∃ e ∈ versionMap, e.Provider = p ∧ e.Module = m := by
  induction versionMap with
  | nil => simp [compatibleLoop]
  | cons e es ih =>
    unfold compatibleLoop
    by_cases h : e.Provider = p ∧ e.Module = m
    · simp [h]
    · rw [if_neg h, ih]
      simp [h]

theorem recommendedLoop_eq (p : Int) (versionMap : List sourceVersion) :
    recommendedLoop p versionMap =
      match versionMap.find? (fun e => decide (e.Provider = p)) with
      | some e => e.Module
      | none => -1 := by
  induction versionMap with
  | nil => simp [recommendedLoop]
  | cons e es ih =>
    unfold recommendedLoop
    by_cases h : e.Provider = p
    · simp [h]
    · rw [if_neg h, ih]
      simp [List.find?, h]

/-- The entries of a component: one of the three shipped lists, or none. -/
theorem lookup_sourceVersionMap (id : String) :
    (id = "terraform-aws-modules/s3-bucket/aws" ∧
      sourceVersionMap.lookup id = some [⟨5, 4⟩, ⟨6, 5⟩]) ∨
    (id = "terraform-aws-modules/vpc/aws" ∧
      sourceVersionMap.lookup id = some [⟨5, 5⟩, ⟨6, 6⟩]) ∨
    (id = "terraform-aws-modules/lambda/aws" ∧
      sourceVersionMap.lookup id = some [⟨5, 7⟩, ⟨6, 8⟩]) ∨
    (id ∉ sourceVersionMap.map Prod.fst ∧ sourceVersionMap.lookup id = none) := by
  by_cases h1 : id = "terraform-aws-modules/s3-bucket/aws"
  · left; subst h1; exact ⟨rfl, by decide⟩
  by_cases h2 : id = "terraform-aws-modules/vpc/aws"
  · right; left; subst h2; exact ⟨rfl, by decide⟩
  by_cases h3 : id = "terraform-aws-modules/lambda/aws"
  · right; right; left; subst h3; exact ⟨rfl, by decide⟩
  right; right; right
  have e1 : (id == "terraform-aws-modules/s3-bucket/aws") = false := by simpa using h1
  have e2 : (id == "terraform-aws-modules/vpc/aws") = false := by simpa using h2
  have e3 : (id == "terraform-aws-modules/lambda/aws") = false := by simpa using h3
  constructor
  · simp [sourceVersionMap, h1, h2, h3]
  · simp [sourceVersionMap, List.lookup, e1, e2, e3]

/-- C6. `IsCompatible` is true exactly when some entry of the component has both majors
equal to the given ones, that is exactly for the six shipped triples; in particular it is
true for s3-bucket with 5 and 4 and false with 5 and 5. -/
theorem isCompatible_iff (id : String) (p m : Int) :
    (IsCompatible id p m = true ↔
      ∃ e ∈ (sourceVersionMap.lookup id).getD [], e.Provider = p ∧ e.Module = m) ∧
    (IsCompatible id p m = true ↔ (id, p, m) ∈ compatibleTriples) ∧
    IsCompatible "terraform-aws-modules/s3-bucket/aws" 5 4 = true ∧
    IsCompatible "terraform-aws-modules/s3-bucket/aws" 5 5 = false := by
  refine ⟨compatibleLoop_iff p m _, ?_, by decide, by decide⟩
  unfold IsCompatible
  rw [compatibleLoop_iff]
  rcases lookup_sourceVersionMap id with ⟨rfl, h⟩ | ⟨rfl, h⟩ | ⟨rfl, h⟩ | ⟨hid, h⟩
  · rw [h]
    simp only [Option.getD_some, compatibleTriples, List.mem_cons, Prod.mk.injEq,
      List.mem_singleton, List.not_mem_nil, or_false, true_and, String.reduceEq, false_and,
      false_or]
    constructor
    · rintro ⟨e, (rfl | rfl), h1, h2⟩
      · left; exact ⟨h1.symm, h2.symm⟩
      · right; exact ⟨h1.symm, h2.symm⟩
    · rintro (⟨rfl, rfl⟩ | ⟨rfl, rfl⟩)
      · exact ⟨⟨5, 4⟩, Or.inl rfl, rfl, rfl⟩
      · exact ⟨⟨6, 5⟩, Or.inr rfl, rfl, rfl⟩
  · rw [h]
    simp only [Option.getD_some, compatibleTriples, List.mem_cons, Prod.mk.injEq,
      List.mem_singleton, List.not_mem_nil, or_false, true_and, String.reduceEq, false_and,
      false_or]
    constructor
    · rintro ⟨e, (rfl | rfl), h1, h2⟩
      · left; exact ⟨h1.symm, h2.symm⟩
      · right; exact ⟨h1.symm, h2.symm⟩
    · rintro (⟨rfl, rfl⟩ | ⟨rfl, rfl⟩)
      · exact ⟨⟨5, 5⟩, Or.inl rfl, rfl, rfl⟩
      · exact ⟨⟨6, 6⟩, Or.inr rfl, rfl, rfl⟩
  · rw [h]
    simp only [Option.getD_some, compatibleTriples, List.mem_cons, Prod.mk.injEq,
      List.mem_singleton, List.not_mem_nil, or_false, true_and, String.reduceEq, false_and,
      false_or]
    constructor
    · rintro ⟨e, (rfl | rfl), h1, h2⟩
      · left; exact ⟨h1.symm, h2.symm⟩
      · right; exact ⟨h1.symm, h2.symm⟩
    · rintro (⟨rfl, rfl⟩ | ⟨rfl, rfl⟩)
      · exact ⟨⟨5, 7⟩, Or.inl rfl, rfl, rfl⟩
      · exact ⟨⟨6, 8⟩, Or.inr rfl, rfl, rfl⟩
  · rw [h]
    simp only [Option.getD_none, List.not_mem_nil, false_and, exists_false, false_iff]
    intro hmem
    apply hid
    simp only [compatibleTriples, List.mem_cons, Prod.mk.injEq, List.mem_singleton,
      List.not_mem_nil, or_false] at hmem
    rcases hmem with h1 | h1 | h1 | h1 | h1 | h1 <;> rw [h1.1] <;> decide

/-- No entry of the shipped table has the module major `-1`, the value the
recommendation loop starts from. -/
theorem shipped_module_ne_sentinel (id : String) :
    ∀ e ∈ (sourceVersionMap.lookup id).getD [], e.Module ≠ -1 := by
  rcases lookup_sourceVersionMap id with ⟨-, h⟩ | ⟨-, h⟩ | ⟨-, h⟩ | ⟨-, h⟩ <;> rw [h] <;> decide

theorem recommendedInternal_of_find (id : String) (p : Int) :
    RecommendedInternal id p =
      match ((sourceVersionMap.lookup id).getD []).find? (fun e => decide (e.Provider = p)) with
      | some e => (e.Module, true)
      | none => (-1, false) := by
  unfold RecommendedInternal
  simp only [recommendedLoop_eq]
  cases hf : ((sourceVersionMap.lookup id).getD []).find? (fun e => decide (e.Provider = p)) with
  | none => rfl
  | some e =>
    have hne := shipped_module_ne_sentinel id e (List.mem_of_find?_eq_some hf)
    simp [hne]

/-- C7. `RecommendedInternal` returns the module major of the first entry of the
component (in list order) whose provider major is the given one, and reports not-found
exactly when no entry of the component has that provider major; for s3-bucket and
provider major 5 it returns 4, found. -/
theorem recommendedInternal_first_entry (id : String) (p : Int) :
    (RecommendedInternal id p =
      match ((sourceVersionMap.lookup id).getD []).find? (fun e => decide (e.Provider = p)) with
      | some e => (e.Module, true)
      | none => (-1, false)) ∧
    ((RecommendedInternal id p).2 = false ↔
      ∀ e ∈ (sourceVersionMap.lookup id).getD [], e.Provider ≠ p) ∧
    RecommendedInternal "terraform-aws-modules/s3-bucket/aws" 5 = (4, true) := by
  refine ⟨recommendedInternal_of_find id p, ?_, by decide⟩
  rw [recommendedInternal_of_find]
  cases hf : ((sourceVersionMap.lookup id).getD []).find? (fun e => decide (e.Provider = p)) with
  | none =>
    simp only [true_iff]
    intro e he
    have := List.find?_eq_none.1 hf e he
    simpa using this
  | some e =>
    simp only [Bool.true_eq_false, false_iff, not_forall]
    have h1 := List.mem_of_find?_eq_some hf
    have h2 := List.find?_some hf
    exact ⟨e, h1, by simpa using h2⟩

theorem lookup_eq_none_of_not_key (id : String) (h : id ∉ sourceVersionMap.map Prod.fst) :
    sourceVersionMap.lookup id = none := by
  rcases lookup_sourceVersionMap id with ⟨e, -⟩ | ⟨e, -⟩ | ⟨e, -⟩ | ⟨-, h1⟩
  · exact absurd (by rw [e]; decide) h
  · exact absurd (by rw [e]; decide) h
  · exact absurd (by rw [e]; decide) h
  · exact h1

theorem lookup_isSome_of_key (id : String) (h : id ∈ sourceVersionMap.map Prod.fst) :
    ∃ versionMap, sourceVersionMap.lookup id = some versionMap := by
  rcases lookup_sourceVersionMap id with ⟨-, h1⟩ | ⟨-, h1⟩ | ⟨-, h1⟩ | ⟨h1, -⟩
  · exact ⟨_, h1⟩
  · exact ⟨_, h1⟩
  · exact ⟨_, h1⟩
  · exact absurd h h1

/-! ## Steps in sequence -/

theorem andThen_ok_ok (a b : List Issue) : andThen (.ok a) (.ok b) = .ok (a ++ b) := rfl

theorem Failure.after_nil (failure : Failure) : failure.after [] = failure := by
  cases failure <;> rfl

theorem Failure.after_append (a b : List Issue) (failure : Failure) :
    failure.after (a ++ b) = (failure.after b).after a := by
  cases failure <;> simp [Failure.after]

theorem andThen_ok_nil_left (r : Except Failure (List Issue)) : andThen (.ok []) r = r := by
  cases r with
  | error failure => simp [andThen, Failure.after_nil]
  | ok issues => rfl

theorem andThen_ok_nil_right (r : Except Failure (List Issue)) : andThen r (.ok []) = r := by
  cases r with
  | error failure => rfl
  | ok issues => simp [andThen]

theorem andThen_assoc (a b c : Except Failure (List Issue)) :
    andThen (andThen a b) c = andThen a (andThen b c) := by
  cases a <;> cases b <;> cases c <;> simp [andThen, Failure.after_append]

theorem forEach_cons {α : Type} (x : α) (xs : List α)
    (body : α → Except Failure (List Issue)) :
    forEach (x :: xs) body = andThen (body x) (forEach xs body) := rfl

theorem forEach_append {α : Type} (xs ys : List α) (body : α → Except Failure (List Issue)) :
    forEach (xs ++ ys) body = andThen (forEach xs body) (forEach ys body) := by
  induction xs with
  | nil => exact (andThen_ok_nil_left _).symm
  | cons x xs ih => rw [List.cons_append, forEach_cons, forEach_cons, ih, andThen_assoc]

/-! ## The guard of the Cross-Version Rule -/

theorem getAwsProviderVersion_of_located (runner : Runner) (files : List (String × File))
    (v : String) (hfiles : runner.GetFiles = .ok files)
    (hloc : AwsModuleVersionRule.awsVersionOfFiles files = .ok (some v)) :
    AwsModuleVersionRule.getAwsProviderVersion runner = .ok v := by
  unfold AwsModuleVersionRule.getAwsProviderVersion
  rw [hfiles]
  simp only [hloc]

/-- C8. When no document declares a version for `aws` (the locator finds none), `Check`
succeeds with no issue, whatever the documents contain. -/
theorem check_without_provider_version (runner : Runner) (files : List (String × File))
    (hfiles : runner.GetFiles = .ok files)
    (hnone : AwsModuleVersionRule.awsVersionOfFiles files = .ok none) :
    AwsModuleVersionRule.getAwsProviderVersion runner = .ok "" ∧
    AwsModuleVersionRule.Check runner = .ok [] := by
  have h1 : AwsModuleVersionRule.getAwsProviderVersion runner = .ok "" := by
    unfold AwsModuleVersionRule.getAwsProviderVersion
    rw [hfiles]
    simp only [hnone]
  refine ⟨h1, ?_⟩
  unfold AwsModuleVersionRule.Check
  rw [h1]
  simp

/-- C8 at the test `no AWS provider defined`: a lone s3-bucket module with version
`"~> 4.0"` and no terraform block. -/
theorem check_without_provider_version_witness :
    AwsModuleVersionRule.Check
      (testRunner [moduleBlock "s3_bucket" "terraform-aws-modules/s3-bucket/aws" "~> 4.0"]) =
      .ok [] :=
  (check_without_provider_version
    (testRunner [moduleBlock "s3_bucket" "terraform-aws-modules/s3-bucket/aws" "~> 4.0"])
    [("resource.tf", ⟨some ⟨[],
      [moduleBlock "s3_bucket" "terraform-aws-modules/s3-bucket/aws" "~> 4.0"]⟩⟩)]
    rfl (by rfl)).2

theorem checkFile_blocks_append (attrs : List (String × Attribute)) (b1 b2 : List Block)
    (v : String) :
    AwsModuleVersionRule.checkFile ⟨some ⟨attrs, b1 ++ b2⟩⟩ v =
      andThen (AwsModuleVersionRule.checkFile ⟨some ⟨attrs, b1⟩⟩ v)
        (AwsModuleVersionRule.checkFile ⟨some ⟨attrs, b2⟩⟩ v) := by
  simp only [AwsModuleVersionRule.checkFile, forEach_append]

theorem checkFile_module_cons (attrs : List (String × Attribute)) (block : Block)
    (b2 : List Block) (v : String) (htype : block.Type = "module") :
    AwsModuleVersionRule.checkFile ⟨some ⟨attrs, block :: b2⟩⟩ v =
      andThen (AwsModuleVersionRule.checkModuleBlock block v)
        (AwsModuleVersionRule.checkFile ⟨some ⟨attrs, b2⟩⟩ v) := by
  simp [AwsModuleVersionRule.checkFile, forEach_cons, htype]

/-- What `Check` does once a non-empty provider version has been located. -/
theorem check_of_located (runner : Runner) (files : List (String × File)) (v : String)
    (hfiles : runner.GetFiles = .ok files)
    (hloc : AwsModuleVersionRule.awsVersionOfFiles files = .ok (some v))
    (hne : v ≠ "") :
    AwsModuleVersionRule.Check runner =
      forEach files fun nf => AwsModuleVersionRule.checkFile nf.2 v := by
  unfold AwsModuleVersionRule.Check
  rw [getAwsProviderVersion_of_located runner files v hfiles hloc]
  simp only [hne, if_false, hfiles]

/-- What `Check` does when the located provider version is the empty string or nothing is
located. -/
theorem check_of_located_empty (runner : Runner) (files : List (String × File))
    (hfiles : runner.GetFiles = .ok files)
    (hloc : AwsModuleVersionRule.awsVersionOfFiles files = .ok (some "") ∨
      AwsModuleVersionRule.awsVersionOfFiles files = .ok none) :
    AwsModuleVersionRule.getAwsProviderVersion runner = .ok "" ∧
    AwsModuleVersionRule.Check runner = .ok [] := by
  have hget : AwsModuleVersionRule.getAwsProviderVersion runner = .ok "" := by
    unfold AwsModuleVersionRule.getAwsProviderVersion
    rw [hfiles]
    rcases hloc with h | h <;> simp only [h]
  refine ⟨hget, ?_⟩
  simp [AwsModuleVersionRule.Check, hget]

/-- What `Check` emits for a module block once a non-empty provider version has been
located: the run of the block, between those of the blocks before and after it. -/
theorem check_module_block (runner : Runner) (f1 f2 : List (String × File)) (name : String)
    (attrs : List (String × Attribute)) (b1 b2 : List Block) (block : Block)
    (awsProviderVersion : String)
    (hfiles : runner.GetFiles = .ok (f1 ++ (name, ⟨some ⟨attrs, b1 ++ block :: b2⟩⟩) :: f2))
    (hloc : AwsModuleVersionRule.awsVersionOfFiles
      (f1 ++ (name, (⟨some ⟨attrs, b1 ++ block :: b2⟩⟩ : File)) :: f2) =
      .ok (some awsProviderVersion))
    (hne : awsProviderVersion ≠ "")
    (htype : block.Type = "module") :
    AwsModuleVersionRule.Check runner =
      andThen (forEach f1 fun nf => AwsModuleVersionRule.checkFile nf.2 awsProviderVersion)
        (andThen (AwsModuleVersionRule.checkFile ⟨some ⟨attrs, b1⟩⟩ awsProviderVersion)
          (andThen (AwsModuleVersionRule.checkModuleBlock block awsProviderVersion)
            (andThen (AwsModuleVersionRule.checkFile ⟨some ⟨attrs, b2⟩⟩ awsProviderVersion)
              (forEach f2 fun nf =>
                AwsModuleVersionRule.checkFile nf.2 awsProviderVersion)))) := by
  rw [check_of_located runner _ awsProviderVersion hfiles hloc hne]
  rw [forEach_append, forEach_cons, checkFile_blocks_append,
    checkFile_module_cons attrs block b2 awsProviderVersion htype]
  simp only [andThen_assoc]

theorem checkEmitsForBlock_of_ne (block : Block) (awsProviderVersion : String)
    (issues : List Issue)
    (hblock : AwsModuleVersionRule.checkModuleBlock block awsProviderVersion = .ok issues)
    (hne : awsProviderVersion ≠ "") :
    CheckEmitsForBlock block awsProviderVersion issues := by
  intro runner f1 f2 name attrs b1 b2 hfiles hloc htype
  rw [← hblock]
  exact check_module_block runner f1 f2 name attrs b1 b2 block awsProviderVersion hfiles hloc
    hne htype

/-- When the blocks and files around a block return, `Check` succeeds with the issues the
rule emits for the block between theirs. -/
theorem check_of_checkEmitsForBlock (block : Block) (awsProviderVersion : String)
    (issues : List Issue) (h : CheckEmitsForBlock block awsProviderVersion issues)
    (runner : Runner) (f1 f2 : List (String × File)) (name : String)
    (attrs : List (String × Attribute)) (b1 b2 : List Block)
    (hfiles : runner.GetFiles = .ok (f1 ++ (name, ⟨some ⟨attrs, b1 ++ block :: b2⟩⟩) :: f2))
    (hloc : AwsModuleVersionRule.awsVersionOfFiles
      (f1 ++ (name, (⟨some ⟨attrs, b1 ++ block :: b2⟩⟩ : File)) :: f2) =
      .ok (some awsProviderVersion))
    (htype : block.Type = "module") (before1 before2 after1 after2 : List Issue)
    (h1 : (forEach f1 fun nf => AwsModuleVersionRule.checkFile nf.2 awsProviderVersion) =
      .ok before1)
    (h2 : AwsModuleVersionRule.checkFile ⟨some ⟨attrs, b1⟩⟩ awsProviderVersion = .ok before2)
    (h3 : AwsModuleVersionRule.checkFile ⟨some ⟨attrs, b2⟩⟩ awsProviderVersion = .ok after1)
    (h4 : (forEach f2 fun nf => AwsModuleVersionRule.checkFile nf.2 awsProviderVersion) =
      .ok after2) :
    AwsModuleVersionRule.Check runner =
      .ok (before1 ++ (before2 ++ (issues ++ (after1 ++ after2)))) := by
  rw [h runner f1 f2 name attrs b1 b2 hfiles hloc htype, h1, h2, h3, h4]
  rfl

/-! ## Module blocks the Cross-Version Rule does not govern -/

/-- A module block whose source is absent, fails to evaluate, has a type other than
string, or is a string that is not a key of the Compatibility Table is skipped by
`checkModuleBlock`, whatever its version attribute and the provider version. A source
that is a null of type string is none of these. -/
theorem checkModuleBlock_skips_unknown_source (block : Block) (awsProviderVersion : String)
    (h : ∀ sourceAttr, block.Body.Attributes.lookup "source" = some sourceAttr →
      sourceAttr.Expr.HasErrors = false → sourceAttr.Expr.Value.Type = .string →
      ∃ source, sourceAttr.Expr.Value = .string source ∧
        source ∉ sourceVersionMap.map Prod.fst) :
    AwsModuleVersionRule.checkModuleBlock block awsProviderVersion = .ok [] := by
  unfold AwsModuleVersionRule.checkModuleBlock
  cases hsrc : block.Body.Attributes.lookup "source" with
  | none => rfl
  | some sourceAttr =>
    simp only
    cases herr : sourceAttr.Expr.HasErrors with
    | true => simp
    | false =>
      by_cases hty : sourceAttr.Expr.Value.Type = .string
      · obtain ⟨source, hval, hk⟩ := h sourceAttr hsrc herr hty
        have h1 := lookup_eq_none_of_not_key source hk
        simp [hval, Value.Type, Value.AsString, h1]
      · simp [hty]

/-- The module blocks on which `checkModuleBlock` panics: the source, or the version of a
block whose source is a key of the Compatibility Table, evaluates without error to a
null of type string. -/
theorem checkModuleBlock_panic_iff (block : Block) (awsProviderVersion : String) :
    AwsModuleVersionRule.checkModuleBlock block awsProviderVersion = .error (.panic []) ↔
      ∃ sourceAttr, block.Body.Attributes.lookup "source" = some sourceAttr ∧
        sourceAttr.Expr.HasErrors = false ∧
        (sourceAttr.Expr.Value = .null .string ∨
          ∃ source versionMap versionAttr, sourceAttr.Expr.Value = .string source ∧
            sourceVersionMap.lookup source = some versionMap ∧
            block.Body.Attributes.lookup "version" = some versionAttr ∧
            versionAttr.Expr.HasErrors = false ∧
            versionAttr.Expr.Value = .null .string) := by
  unfold AwsModuleVersionRule.checkModuleBlock
  cases hsrc : block.Body.Attributes.lookup "source" with
  | none => simp
  | some sourceAttr =>
    simp only [Option.some.injEq, exists_eq_left']
    cases herr : sourceAttr.Expr.HasErrors with
    | true => simp
    | false =>
      cases hval : sourceAttr.Expr.Value with
      | object attrs => simp [Value.Type]
      | other => simp [Value.Type]
      | null ty => cases ty <;> simp [Value.Type, Value.AsString]
      | string source =>
        simp only [Value.Type, bne_self_eq_false, Bool.or_false, Bool.false_eq_true, if_false,
          Value.AsString, true_and, false_or, Value.string.injEq, exists_and_left,
          exists_eq_left']
        cases hmap : sourceVersionMap.lookup source with
        | none => simp
        | some versionMap =>
          simp only [Option.some.injEq, exists_eq_left', exists_const]
          cases hver : block.Body.Attributes.lookup "version" with
          | none => simp
          | some versionAttr =>
            simp only [Option.some.injEq, exists_eq_left']
            cases herr2 : versionAttr.Expr.HasErrors with
            | true => simp
            | false =>
              cases hval2 : versionAttr.Expr.Value with
              | object attrs => simp [Value.Type]
              | other => simp [Value.Type]
              | null ty => cases ty <;> simp [Value.Type, Value.AsString]
              | string v => simp [Value.Type, Value.AsString]

/-- C9 fails on the code. The source `true ? null : "./modules/custom"` of a module block
is not a literal string and no key of the Compatibility Table; it evaluates without error
to a null of type string, which passes the test `sourceVal.Type() != cty.String`, and
`AsString` panics on it: `checkModuleBlock` does not return and `Check` stops, where the
block is to be skipped. The literal `null`, a null of another type, is skipped, and so is
the source `"./modules/custom"` of the test `non-aws module should not be checked`. -/
theorem checkModuleBlock_null_source_panics :
    AwsModuleVersionRule.checkModuleBlock
      (.mk "module" ["custom"] [("source", nullAttribute .string 12),
        ("version", stringAttribute "1.0.0" 13)] []) "~> 5.0" = .error (.panic []) ∧
    AwsModuleVersionRule.Check (testRunner [awsProviderBlock "~> 5.0",
      .mk "module" ["custom"] [("source", nullAttribute .string 12),
        ("version", stringAttribute "1.0.0" 13)] []]) = .error (.panic []) ∧
    AwsModuleVersionRule.checkModuleBlock
      (.mk "module" ["custom"] [("source", nullAttribute .other 12),
        ("version", stringAttribute "1.0.0" 13)] []) "~> 5.0" = .ok [] ∧
    AwsModuleVersionRule.checkModuleBlock (moduleBlock "custom" "./modules/custom" "1.0.0")
      "~> 5.0" = .ok [] :=
  ⟨by rfl, by rfl, by rfl, by rfl⟩

/-! ## A module block without a version -/

/-- C10 fails as stated: the located provider version is the empty string, the
s3-bucket module has no version, the block on its own would get the issue, and `Check`
emits nothing. -/
theorem check_empty_provider_version_silent :
    AwsModuleVersionRule.awsVersionOfFiles
      [("resource.tf", (⟨some ⟨[], [awsProviderBlock "",
        moduleBlockWithoutVersion "s3_bucket" "terraform-aws-modules/s3-bucket/aws"]⟩⟩ : File))] =
      .ok (some "") ∧
    AwsModuleVersionRule.checkModuleBlock
      (moduleBlockWithoutVersion "s3_bucket" "terraform-aws-modules/s3-bucket/aws") "" =
      .ok [⟨"aws_module_version_rule",
        "Module terraform-aws-modules/s3-bucket/aws should specify a version constraint",
        ⟨"resource.tf", ⟨12, 12, 0⟩, ⟨12, 49, 0⟩⟩⟩] ∧
    AwsModuleVersionRule.Check (testRunner [awsProviderBlock "",
      moduleBlockWithoutVersion "s3_bucket" "terraform-aws-modules/s3-bucket/aws"]) = .ok [] :=
  ⟨by rfl, by rfl, by rfl⟩

/-- C10, amended. When the located provider version is not the empty string, a module
block with a source that is a key of the Compatibility Table and no version attribute
gets exactly one issue, `Module <source> should specify a version constraint` at the
range of the source attribute, and `Check` emits it between the runs of the blocks
before and after. -/
theorem check_module_without_version (runner : Runner) (f1 f2 : List (String × File))
    (name : String) (attrs : List (String × Attribute)) (b1 b2 : List Block) (block : Block)
    (awsProviderVersion : String) (sourceAttr : Attribute) (source : String)
    (hfiles : runner.GetFiles = .ok (f1 ++ (name, ⟨some ⟨attrs, b1 ++ block :: b2⟩⟩) :: f2))
    (hloc : AwsModuleVersionRule.awsVersionOfFiles
      (f1 ++ (name, (⟨some ⟨attrs, b1 ++ block :: b2⟩⟩ : File)) :: f2) =
      .ok (some awsProviderVersion))
    (hne : awsProviderVersion ≠ "")
    (htype : block.Type = "module")
    (hsrc : block.Body.Attributes.lookup "source" = some sourceAttr)
    (herr : sourceAttr.Expr.HasErrors = false)
    (hval : sourceAttr.Expr.Value = .string source)
    (hkey : source ∈ sourceVersionMap.map Prod.fst)
    (hver : block.Body.Attributes.lookup "version" = none) :
    AwsModuleVersionRule.checkModuleBlock block awsProviderVersion =
      .ok [⟨"aws_module_version_rule",
        "Module " ++ source ++ " should specify a version constraint",
        sourceAttr.Expr.Range⟩] ∧
    AwsModuleVersionRule.Check runner =
      andThen (forEach f1 fun nf => AwsModuleVersionRule.checkFile nf.2 awsProviderVersion)
        (andThen (AwsModuleVersionRule.checkFile ⟨some ⟨attrs, b1⟩⟩ awsProviderVersion)
          (andThen (.ok [⟨"aws_module_version_rule",
              "Module " ++ source ++ " should specify a version constraint",
              sourceAttr.Expr.Range⟩])
            (andThen (AwsModuleVersionRule.checkFile ⟨some ⟨attrs, b2⟩⟩ awsProviderVersion)
              (forEach f2 fun nf =>
                AwsModuleVersionRule.checkFile nf.2 awsProviderVersion)))) := by
  have hblock : AwsModuleVersionRule.checkModuleBlock block awsProviderVersion =
      .ok [⟨"aws_module_version_rule",
        "Module " ++ source ++ " should specify a version constraint",
        sourceAttr.Expr.Range⟩] := by
    obtain ⟨versionMap, hmap⟩ := lookup_isSome_of_key source hkey
    unfold AwsModuleVersionRule.checkModuleBlock
    simp only [hsrc, herr, hval, Value.Type, Value.AsString, hmap, hver]
    rfl
  refine ⟨hblock, ?_⟩
  rw [← hblock]
  exact check_module_block runner f1 f2 name attrs b1 b2 block awsProviderVersion hfiles hloc
    hne htype

/-- C10, amended, at the test `module without version constraint`: provider `"~> 5.0"` and
an s3-bucket module without a version. -/
theorem check_module_without_version_witness :
    AwsModuleVersionRule.Check (testRunner [awsProviderBlock "~> 5.0",
      moduleBlockWithoutVersion "s3_bucket" "terraform-aws-modules/s3-bucket/aws"]) =
      .ok [⟨"aws_module_version_rule",
        "Module terraform-aws-modules/s3-bucket/aws should specify a version constraint",
        ⟨"resource.tf", ⟨12, 12, 0⟩, ⟨12, 49, 0⟩⟩⟩] :=
  (check_module_without_version
    (testRunner [awsProviderBlock "~> 5.0",
      moduleBlockWithoutVersion "s3_bucket" "terraform-aws-modules/s3-bucket/aws"])
    [] [] "resource.tf" [] [awsProviderBlock "~> 5.0"] []
    (moduleBlockWithoutVersion "s3_bucket" "terraform-aws-modules/s3-bucket/aws")
    "~> 5.0" (stringAttributeAt "resource.tf" 12 12 "terraform-aws-modules/s3-bucket/aws")
    "terraform-aws-modules/s3-bucket/aws"
    rfl (by rfl) (by decide) rfl rfl rfl rfl (by decide) rfl).2

/-! ## Module blocks of the Cross-Version Rule -/

theorem checkModuleBlock_of_known (block : Block) (awsProviderVersion : String)
    (sourceAttr versionAttr : Attribute) (source moduleVersion : String)
    (versionMap : List sourceVersion)
    (hk : IsKnownModule block sourceAttr versionAttr source moduleVersion versionMap) :
    AwsModuleVersionRule.checkModuleBlock block awsProviderVersion =
      .ok (AwsModuleVersionRule.checkRightmostOperator moduleVersion versionAttr.Expr.Range
          ("Module " ++ source) ++
        AwsModuleVersionRule.checkCompatibility versionMap source moduleVersion
          versionAttr.Expr.Range awsProviderVersion) := by
  obtain ⟨h1, h2, h3, h4, h5, h6, h7⟩ := hk
  unfold AwsModuleVersionRule.checkModuleBlock
  simp only [h1, h2, h3, h4, h5, h6, h7, Value.Type, Value.AsString]
  rfl

theorem checkCompatibility_eq (versionMap : List sourceVersion) (source moduleVersion : String)
    (rng : Range) (awsProviderVersion : String) :
    AwsModuleVersionRule.checkCompatibility versionMap source moduleVersion rng
        awsProviderVersion =
      if extractMajorVersion awsProviderVersion = -1 then []
      else if extractMajorVersion moduleVersion = -1 then []
      else if compatibleLoop (extractMajorVersion awsProviderVersion)
          (extractMajorVersion moduleVersion) versionMap = true then []
      else if recommendedLoop (extractMajorVersion awsProviderVersion) versionMap ≠ -1 then
        [⟨"aws_module_version_rule",
          notCompatibleMessage source (extractMajorVersion moduleVersion) awsProviderVersion
            (recommendedLoop (extractMajorVersion awsProviderVersion) versionMap)
            (extractMajorVersion awsProviderVersion), rng⟩]
      else
        [⟨"aws_module_version_rule",
          noMappingMessage source (extractMajorVersion moduleVersion) awsProviderVersion,
          rng⟩] := by
  unfold AwsModuleVersionRule.checkCompatibility
  simp only []
  split
  · rfl
  · split
    · rfl
    · cases compatibleLoop (extractMajorVersion awsProviderVersion)
          (extractMajorVersion moduleVersion) versionMap
      · simp only [Bool.not_false, if_true, Bool.false_eq_true, if_false]
        split <;> rfl
      · simp

theorem ne_empty_of_major (awsProviderVersion : String) (p : Int)
    (hp : extractMajorVersion awsProviderVersion = p) (hp1 : p ≠ -1) :
    awsProviderVersion ≠ "" := by
  rintro rfl
  exact hp1 (hp.symm.trans (by decide))

theorem noMapping_ne_notCompatible (source : String) (m : Int) (aws : String) (r q : Int) :
    notCompatibleMessage source m aws r q ≠ noMappingMessage source m aws := by
  intro h
  have h1 := congrArg String.data h
  simp only [notCompatibleMessage, noMappingMessage, String.data_append, List.append_assoc,
    List.append_cancel_left_eq] at h1
  have h2 := congrArg (fun l => l.get? 3) h1
  simp at h2

theorem formatMessage_ne_notCompatible (source version : String) (m : Int) (aws : String)
    (r q : Int) :
    notCompatibleMessage source m aws r q ≠ formatMessage ("Module " ++ source) version := by
  intro h
  have h1 := congrArg String.data h
  simp only [notCompatibleMessage, formatMessage, String.data_append, List.append_assoc,
    List.append_cancel_left_eq] at h1
  have h2 := congrArg (fun l => l.get? 9) h1
  simp at h2

theorem formatMessage_ne_noMapping (source version : String) (m : Int) (aws : String) :
    noMappingMessage source m aws ≠ formatMessage ("Module " ++ source) version := by
  intro h
  have h1 := congrArg String.data h
  simp only [noMappingMessage, formatMessage, String.data_append, List.append_assoc,
    List.append_cancel_left_eq] at h1
  have h2 := congrArg (fun l => l.get? 9) h1
  simp at h2

theorem shipped_entries (source : String) (versionMap : List sourceVersion)
    (h : sourceVersionMap.lookup source = some versionMap) :
    versionMap = [⟨5, 4⟩, ⟨6, 5⟩] ∨ versionMap = [⟨5, 5⟩, ⟨6, 6⟩] ∨
      versionMap = [⟨5, 7⟩, ⟨6, 8⟩] := by
  rcases lookup_sourceVersionMap source with ⟨-, h1⟩ | ⟨-, h1⟩ | ⟨-, h1⟩ | ⟨-, h1⟩ <;>
    rw [h1] at h
  · left; exact (Option.some.inj h).symm
  · right; left; exact (Option.some.inj h).symm
  · right; right; exact (Option.some.inj h).symm
  · exact absurd h (by simp)

/-- In the shipped table the entry of a provider major is the recommendation for it. -/
theorem shipped_recommended (source : String) (versionMap : List sourceVersion) (p r : Int)
    (h : sourceVersionMap.lookup source = some versionMap)
    (he : (⟨p, r⟩ : sourceVersion) ∈ versionMap) :
    recommendedLoop p versionMap = r ∧ r ≠ -1 := by
  rcases shipped_entries source versionMap h with rfl | rfl | rfl <;>
    · simp only [List.mem_cons, sourceVersion.mk.injEq, List.mem_singleton, List.not_mem_nil,
        or_false] at he
      rcases he with ⟨rfl, rfl⟩ | ⟨rfl, rfl⟩ <;> exact ⟨by decide, by decide⟩

/-- The provider majors of the shipped table are 5 and 6, for every component. -/
theorem shipped_no_entry_iff (source : String) (versionMap : List sourceVersion) (p : Int)
    (h : sourceVersionMap.lookup source = some versionMap) :
    (∀ e ∈ versionMap, e.Provider ≠ p) ↔ p ≠ 5 ∧ p ≠ 6 := by
  rcases shipped_entries source versionMap h with rfl | rfl | rfl <;>
    · simp only [List.mem_cons, List.mem_singleton, List.not_mem_nil, or_false,
        forall_eq_or_imp, forall_eq, ne_eq]
      constructor
      · rintro ⟨h1, h2⟩; exact ⟨fun e => h1 e.symm, fun e => h2 e.symm⟩
      · rintro ⟨h1, h2⟩; exact ⟨fun e => h1 e.symm, fun e => h2 e.symm⟩

theorem compatibleLoop_of_no_entry (p m : Int) (versionMap : List sourceVersion)
    (h : ∀ e ∈ versionMap, e.Provider ≠ p) : compatibleLoop p m versionMap = false := by
  cases hc : compatibleLoop p m versionMap
  · rfl
  · obtain ⟨e, he, h1, -⟩ := (compatibleLoop_iff p m versionMap).1 hc
    exact absurd h1 (h e he)

theorem recommendedLoop_of_no_entry (p : Int) (versionMap : List sourceVersion)
    (h : ∀ e ∈ versionMap, e.Provider ≠ p) : recommendedLoop p versionMap = -1 := by
  induction versionMap with
  | nil => rfl
  | cons e es ih =>
    unfold recommendedLoop
    rw [if_neg (h e (by simp))]
    exact ih fun x hx => h x (by simp [hx])

theorem compatibleLoop_eq_false_iff (p m : Int) (versionMap : List sourceVersion) :
    compatibleLoop p m versionMap = false ↔ (⟨p, m⟩ : sourceVersion) ∉ versionMap := by
  constructor
  · intro hc hmem
    have := (compatibleLoop_iff p m versionMap).2 ⟨⟨p, m⟩, hmem, rfl, rfl⟩
    rw [hc] at this
    exact absurd this (by decide)
  · intro hmem
    cases hc : compatibleLoop p m versionMap
    · rfl
    · obtain ⟨e, he, h1, h2⟩ := (compatibleLoop_iff p m versionMap).1 hc
      obtain ⟨ep, em⟩ := e
      simp only at h1 h2
      subst h1 h2
      exact absurd he hmem

/-- C11. A module block with a known source and a version that passes `ValidateFormat`
gets no issue when the majors of the provider version and of the module version are an
entry of the source in the Compatibility Table: `checkModuleBlock` returns none, and
`Check` emits none at the block's place in the run of any document set with that located
provider version. -/
theorem checkModuleBlock_compatible (block : Block) (awsProviderVersion : String)
    (sourceAttr versionAttr : Attribute) (source moduleVersion : String)
    (versionMap : List sourceVersion) (p m : Int)
    (hk : IsKnownModule block sourceAttr versionAttr source moduleVersion versionMap)
    (hfmt : ValidateFormat moduleVersion = true)
    (hp : extractMajorVersion awsProviderVersion = p)
    (hm : extractMajorVersion moduleVersion = m)
    (hentry : (⟨p, m⟩ : sourceVersion) ∈ versionMap) :
    AwsModuleVersionRule.checkModuleBlock block awsProviderVersion = .ok [] ∧
    CheckEmitsForBlock block awsProviderVersion [] := by
  have hb : AwsModuleVersionRule.checkModuleBlock block awsProviderVersion = .ok [] := by
    rw [checkModuleBlock_of_known block awsProviderVersion sourceAttr versionAttr source
      moduleVersion versionMap hk, checkRightmostOperator_eq, checkCompatibility_eq, hp, hm]
    have hc : compatibleLoop p m versionMap = true :=
      (compatibleLoop_iff p m versionMap).2 ⟨⟨p, m⟩, hentry, rfl, rfl⟩
    simp [hfmt, hc]
  refine ⟨hb, ?_⟩
  have hp1 : p ≠ -1 := by
    intro h
    have := shipped_recommended source versionMap p m hk.2.2.2.1 hentry
    have hno := (shipped_no_entry_iff source versionMap p hk.2.2.2.1).2
      ⟨by rw [h]; decide, by rw [h]; decide⟩
    exact hno ⟨p, m⟩ hentry rfl
  exact checkEmitsForBlock_of_ne block awsProviderVersion [] hb
    (ne_empty_of_major awsProviderVersion p hp hp1)

/-- C11 at the six valid combinations of the test suite, for the block and for `Check`
on the document of the first test. -/
theorem checkModuleBlock_compatible_witness :
    AwsModuleVersionRule.checkModuleBlock
      (moduleBlock "s3_bucket" "terraform-aws-modules/s3-bucket/aws" "~> 4.0") "~> 5.0" = .ok [] ∧
    AwsModuleVersionRule.checkModuleBlock
      (moduleBlock "vpc" "terraform-aws-modules/vpc/aws" "~> 5.0") "~> 5.0" = .ok [] ∧
    AwsModuleVersionRule.checkModuleBlock
      (moduleBlock "lambda" "terraform-aws-modules/lambda/aws" "~> 7.0") "~> 5.0" = .ok [] ∧
    AwsModuleVersionRule.checkModuleBlock
      (moduleBlock "s3_bucket" "terraform-aws-modules/s3-bucket/aws" "~> 5.0") "~> 6.0" = .ok [] ∧
    AwsModuleVersionRule.checkModuleBlock
      (moduleBlock "vpc" "terraform-aws-modules/vpc/aws" "~> 6.0") "~> 6.0" = .ok [] ∧
    AwsModuleVersionRule.checkModuleBlock
      (moduleBlock "lambda" "terraform-aws-modules/lambda/aws" "~> 8.0") "~> 6.0" = .ok [] ∧
    AwsModuleVersionRule.Check (testRunner [awsProviderBlock "~> 5.0",
      moduleBlock "s3_bucket" "terraform-aws-modules/s3-bucket/aws" "~> 4.0"]) = .ok [] :=
  ⟨(checkModuleBlock_compatible (moduleBlock "s3_bucket" "terraform-aws-modules/s3-bucket/aws" "~> 4.0") "~> 5.0"
      (stringAttribute "terraform-aws-modules/s3-bucket/aws" 12) (stringAttribute "~> 4.0" 13)
      "terraform-aws-modules/s3-bucket/aws" "~> 4.0" [⟨5, 4⟩, ⟨6, 5⟩] 5 4
      ⟨rfl, rfl, rfl, by decide, rfl, rfl, rfl⟩ (by decide) (by decide) (by decide)
      (by decide)).1,
   (checkModuleBlock_compatible (moduleBlock "vpc" "terraform-aws-modules/vpc/aws" "~> 5.0") "~> 5.0"
      (stringAttribute "terraform-aws-modules/vpc/aws" 12) (stringAttribute "~> 5.0" 13)
      "terraform-aws-modules/vpc/aws" "~> 5.0" [⟨5, 5⟩, ⟨6, 6⟩] 5 5
      ⟨rfl, rfl, rfl, by decide, rfl, rfl, rfl⟩ (by decide) (by decide) (by decide)
      (by decide)).1,
   (checkModuleBlock_compatible (moduleBlock "lambda" "terraform-aws-modules/lambda/aws" "~> 7.0") "~> 5.0"
      (stringAttribute "terraform-aws-modules/lambda/aws" 12) (stringAttribute "~> 7.0" 13)
      "terraform-aws-modules/lambda/aws" "~> 7.0" [⟨5, 7⟩, ⟨6, 8⟩] 5 7
      ⟨rfl, rfl, rfl, by decide, rfl, rfl, rfl⟩ (by decide) (by decide) (by decide)
      (by decide)).1,
   (checkModuleBlock_compatible (moduleBlock "s3_bucket" "terraform-aws-modules/s3-bucket/aws" "~> 5.0") "~> 6.0"
      (stringAttribute "terraform-aws-modules/s3-bucket/aws" 12) (stringAttribute "~> 5.0" 13)
      "terraform-aws-modules/s3-bucket/aws" "~> 5.0" [⟨5, 4⟩, ⟨6, 5⟩] 6 5
      ⟨rfl, rfl, rfl, by decide, rfl, rfl, rfl⟩ (by decide) (by decide) (by decide)
      (by decide)).1,
   (checkModuleBlock_compatible (moduleBlock "vpc" "terraform-aws-modules/vpc/aws" "~> 6.0") "~> 6.0"
      (stringAttribute "terraform-aws-modules/vpc/aws" 12) (stringAttribute "~> 6.0" 13)
      "terraform-aws-modules/vpc/aws" "~> 6.0" [⟨5, 5⟩, ⟨6, 6⟩] 6 6
      ⟨rfl, rfl, rfl, by decide, rfl, rfl, rfl⟩ (by decide) (by decide) (by decide)
      (by decide)).1,
   (checkModuleBlock_compatible (moduleBlock "lambda" "terraform-aws-modules/lambda/aws" "~> 8.0") "~> 6.0"
      (stringAttribute "terraform-aws-modules/lambda/aws" 12) (stringAttribute "~> 8.0" 13)
      "terraform-aws-modules/lambda/aws" "~> 8.0" [⟨5, 7⟩, ⟨6, 8⟩] 6 8
      ⟨rfl, rfl, rfl, by decide, rfl, rfl, rfl⟩ (by decide) (by decide) (by decide)
      (by decide)).1,
   (checkModuleBlock_compatible (moduleBlock "s3_bucket" "terraform-aws-modules/s3-bucket/aws" "~> 4.0") "~> 5.0"
      (stringAttribute "terraform-aws-modules/s3-bucket/aws" 12) (stringAttribute "~> 4.0" 13)
      "terraform-aws-modules/s3-bucket/aws" "~> 4.0" [⟨5, 4⟩, ⟨6, 5⟩] 5 4
      ⟨rfl, rfl, rfl, by decide, rfl, rfl, rfl⟩ (by decide) (by decide) (by decide)
      (by decide)).2
      (testRunner [awsProviderBlock "~> 5.0",
        moduleBlock "s3_bucket" "terraform-aws-modules/s3-bucket/aws" "~> 4.0"])
      [] [] "resource.tf" [] [awsProviderBlock "~> 5.0"] [] rfl (by rfl) rfl⟩

/-- C12. For a module block with a known source whose provider major `p` and module major
`m` both extract, are not an entry of the source, while the source has an entry for `p`
with module major `r`: the block's issues are the format issue, if any, followed by the
issue `Module <source> version ~> <m>.0 is not compatible with AWS provider version
<raw provider version>. Use module version ~> <r>.0 for AWS provider ~> <p>.0` at the
range of the version attribute; it is the only issue when the version passes
`ValidateFormat`; and `Check` emits exactly these for the block. -/
theorem checkModuleBlock_not_compatible (block : Block) (awsProviderVersion : String)
    (sourceAttr versionAttr : Attribute) (source moduleVersion : String)
    (versionMap : List sourceVersion) (p m r : Int)
    (hk : IsKnownModule block sourceAttr versionAttr source moduleVersion versionMap)
    (hp : extractMajorVersion awsProviderVersion = p)
    (hm : extractMajorVersion moduleVersion = m)
    (hp1 : p ≠ -1) (hm1 : m ≠ -1)
    (hnot : (⟨p, m⟩ : sourceVersion) ∉ versionMap)
    (hrec : (⟨p, r⟩ : sourceVersion) ∈ versionMap) :
    AwsModuleVersionRule.checkModuleBlock block awsProviderVersion =
      .ok (AwsModuleVersionRule.checkRightmostOperator moduleVersion versionAttr.Expr.Range
          ("Module " ++ source) ++
        [⟨"aws_module_version_rule",
          notCompatibleMessage source m awsProviderVersion r p, versionAttr.Expr.Range⟩]) ∧
    (ValidateFormat moduleVersion = true →
      AwsModuleVersionRule.checkModuleBlock block awsProviderVersion =
        .ok [⟨"aws_module_version_rule",
          notCompatibleMessage source m awsProviderVersion r p, versionAttr.Expr.Range⟩]) ∧
    CheckEmitsForBlock block awsProviderVersion
      (AwsModuleVersionRule.checkRightmostOperator moduleVersion versionAttr.Expr.Range
          ("Module " ++ source) ++
        [⟨"aws_module_version_rule",
          notCompatibleMessage source m awsProviderVersion r p, versionAttr.Expr.Range⟩]) := by
  obtain ⟨hr, hr1⟩ := shipped_recommended source versionMap p r hk.2.2.2.1 hrec
  have hc : compatibleLoop p m versionMap = false :=
    (compatibleLoop_eq_false_iff p m versionMap).2 hnot
  have h1 := checkModuleBlock_of_known block awsProviderVersion sourceAttr versionAttr source
    moduleVersion versionMap hk
  rw [checkCompatibility_eq, hp, hm, if_neg hp1, if_neg hm1, hc, hr] at h1
  simp only [Bool.false_eq_true, if_false, ne_eq, hr1, not_false_eq_true, if_true] at h1
  refine ⟨h1, fun hfmt => ?_, ?_⟩
  · rw [h1, checkRightmostOperator_eq, if_pos hfmt]
    rfl
  · exact checkEmitsForBlock_of_ne block awsProviderVersion _ h1
      (ne_empty_of_major awsProviderVersion p hp hp1)

/-- C12 at the test `invalid s3-bucket module version for AWS provider v5`: `Check` on
provider `"~> 5.0"` and s3-bucket `"~> 5.0"` gives the recommendation of `~> 4.0`. -/
theorem checkModuleBlock_not_compatible_witness :
    AwsModuleVersionRule.Check (testRunner [awsProviderBlock "~> 5.0",
      moduleBlock "s3_bucket" "terraform-aws-modules/s3-bucket/aws" "~> 5.0"]) =
      .ok [⟨"aws_module_version_rule",
        "Module terraform-aws-modules/s3-bucket/aws version ~> 5.0 is not compatible with AWS provider version ~> 5.0. Use module version ~> 4.0 for AWS provider ~> 5.0",
        lineRange 13⟩] :=
  (checkModuleBlock_not_compatible
    (moduleBlock "s3_bucket" "terraform-aws-modules/s3-bucket/aws" "~> 5.0") "~> 5.0"
    (stringAttribute "terraform-aws-modules/s3-bucket/aws" 12) (stringAttribute "~> 5.0" 13)
    "terraform-aws-modules/s3-bucket/aws" "~> 5.0" [⟨5, 4⟩, ⟨6, 5⟩] 5 5 4
    ⟨rfl, rfl, rfl, by decide, rfl, rfl, rfl⟩ (by decide) (by decide) (by decide) (by decide)
    (by decide) (by decide)).2.2
    (testRunner [awsProviderBlock "~> 5.0",
      moduleBlock "s3_bucket" "terraform-aws-modules/s3-bucket/aws" "~> 5.0"])
    [] [] "resource.tf" [] [awsProviderBlock "~> 5.0"] [] rfl (by rfl) rfl

/-- C13. For a module block with a known source whose provider major `p` and module major
`m` both extract while the source has no entry for `p` (in the shipped table: `p` is
neither 5 nor 6): the block's issues are the format issue, if any, followed by the issue
`Module <source> version ~> <m>.0 does not have a known compatibility mapping for AWS
provider version <raw provider version>` at the range of the version attribute, no
issue has the text of the other variant, and `Check` emits exactly these for the
block. -/
theorem checkModuleBlock_no_mapping (block : Block) (awsProviderVersion : String)
    (sourceAttr versionAttr : Attribute) (source moduleVersion : String)
    (versionMap : List sourceVersion) (p m : Int)
    (hk : IsKnownModule block sourceAttr versionAttr source moduleVersion versionMap)
    (hp : extractMajorVersion awsProviderVersion = p)
    (hm : extractMajorVersion moduleVersion = m)
    (hp1 : p ≠ -1) (hm1 : m ≠ -1)
    (hno : ∀ e ∈ versionMap, e.Provider ≠ p) :
    AwsModuleVersionRule.checkModuleBlock block awsProviderVersion =
      .ok (AwsModuleVersionRule.checkRightmostOperator moduleVersion versionAttr.Expr.Range
          ("Module " ++ source) ++
        [⟨"aws_module_version_rule", noMappingMessage source m awsProviderVersion,
          versionAttr.Expr.Range⟩]) ∧
    (∀ issues, AwsModuleVersionRule.checkModuleBlock block awsProviderVersion = .ok issues →
      ∀ i ∈ issues, ∀ r q : Int,
        i.Message ≠ notCompatibleMessage source m awsProviderVersion r q) ∧
    ((∀ e ∈ versionMap, e.Provider ≠ p) ↔ p ≠ 5 ∧ p ≠ 6) ∧
    CheckEmitsForBlock block awsProviderVersion
      (AwsModuleVersionRule.checkRightmostOperator moduleVersion versionAttr.Expr.Range
          ("Module " ++ source) ++
        [⟨"aws_module_version_rule", noMappingMessage source m awsProviderVersion,
          versionAttr.Expr.Range⟩]) := by
  have hc := compatibleLoop_of_no_entry p m versionMap hno
  have hr := recommendedLoop_of_no_entry p versionMap hno
  have h1 := checkModuleBlock_of_known block awsProviderVersion sourceAttr versionAttr source
    moduleVersion versionMap hk
  rw [checkCompatibility_eq, hp, hm, if_neg hp1, if_neg hm1, hc, hr] at h1
  simp only [Bool.false_eq_true, if_false, ne_eq, not_true_eq_false] at h1
  refine ⟨h1, ?_, shipped_no_entry_iff source versionMap p hk.2.2.2.1, ?_⟩
  · intro issues hissues i hi r q
    rw [h1] at hissues
    rw [← Except.ok.inj hissues, checkRightmostOperator_eq] at hi
    rcases List.mem_append.1 hi with hi | hi
    · split at hi
      · simp at hi
      · rw [List.mem_singleton.1 hi]
        exact (formatMessage_ne_notCompatible source moduleVersion m awsProviderVersion r q).symm
    · rw [List.mem_singleton.1 hi]
      exact (noMapping_ne_notCompatible source m awsProviderVersion r q).symm
  · exact checkEmitsForBlock_of_ne block awsProviderVersion _ h1
      (ne_empty_of_major awsProviderVersion p hp hp1)

/-- C13 at `Check` on provider `"~> 7.0"` and s3-bucket `"~> 4.0"`. -/
theorem checkModuleBlock_no_mapping_witness :
    AwsModuleVersionRule.Check (testRunner [awsProviderBlock "~> 7.0",
      moduleBlock "s3_bucket" "terraform-aws-modules/s3-bucket/aws" "~> 4.0"]) =
      .ok [⟨"aws_module_version_rule",
        "Module terraform-aws-modules/s3-bucket/aws version ~> 4.0 does not have a known compatibility mapping for AWS provider version ~> 7.0",
        lineRange 13⟩] :=
  (checkModuleBlock_no_mapping
    (moduleBlock "s3_bucket" "terraform-aws-modules/s3-bucket/aws" "~> 4.0") "~> 7.0"
    (stringAttribute "terraform-aws-modules/s3-bucket/aws" 12) (stringAttribute "~> 4.0" 13)
    "terraform-aws-modules/s3-bucket/aws" "~> 4.0" [⟨5, 4⟩, ⟨6, 5⟩] 7 4
    ⟨rfl, rfl, rfl, by decide, rfl, rfl, rfl⟩ (by decide) (by decide) (by decide) (by decide)
    (by decide)).2.2.2
    (testRunner [awsProviderBlock "~> 7.0",
      moduleBlock "s3_bucket" "terraform-aws-modules/s3-bucket/aws" "~> 4.0"])
    [] [] "resource.tf" [] [awsProviderBlock "~> 7.0"] [] rfl (by rfl) rfl

theorem checkRightmostOperator_length (version : String) (rng : Range) (name : String) :
    (AwsModuleVersionRule.checkRightmostOperator version rng name).length ≤ 1 := by
  rw [checkRightmostOperator_eq]
  split <;> simp

theorem checkCompatibility_length (versionMap : List sourceVersion)
    (source moduleVersion : String) (rng : Range) (awsProviderVersion : String) :
    (AwsModuleVersionRule.checkCompatibility versionMap source moduleVersion rng
      awsProviderVersion).length ≤ 1 := by
  rw [checkCompatibility_eq]
  repeat' split
  all_goals simp

theorem checkModuleBlock_length (block : Block) (awsProviderVersion : String) :
    AwsModuleVersionRule.checkModuleBlock block awsProviderVersion = .error (.panic []) ∨
    ∃ issues, AwsModuleVersionRule.checkModuleBlock block awsProviderVersion = .ok issues ∧
      issues.length ≤ 2 := by
  have hnil : ∀ r : Except Failure (List Issue), r = .ok [] →
      r = .error (.panic []) ∨ ∃ issues, r = .ok issues ∧ issues.length ≤ 2 :=
    fun r h => Or.inr ⟨[], h, by simp⟩
  have hstr : ∀ (val : Value) (k : String → Except Failure (List Issue)),
      (∀ s, k s = .error (.panic []) ∨ ∃ issues, k s = .ok issues ∧ issues.length ≤ 2) →
      (match val.AsString with
        | .error failure => (.error failure : Except Failure (List Issue))
        | .ok s => k s) = .error (.panic []) ∨
      ∃ issues, (match val.AsString with
        | .error failure => (.error failure : Except Failure (List Issue))
        | .ok s => k s) = .ok issues ∧ issues.length ≤ 2 := by
    intro val k hk
    cases val with
    | string s => exact hk s
    | object attrs => exact Or.inl rfl
    | null ty => exact Or.inl rfl
    | other => exact Or.inl rfl
  unfold AwsModuleVersionRule.checkModuleBlock
  split
  · exact hnil _ rfl
  · simp only
    split
    · exact hnil _ rfl
    · apply hstr
      intro source
      split
      · exact hnil _ rfl
      · split
        · exact Or.inr ⟨_, rfl, by simp [EmitIssue]⟩
        · split
          · exact hnil _ rfl
          · apply hstr
            intro moduleVersion
            refine Or.inr ⟨_, rfl, ?_⟩
            rw [List.length_append]
            have h1 := checkRightmostOperator_length
            have h2 := checkCompatibility_length
            exact Nat.add_le_add (h1 _ _ _) (h2 _ _ _ _ _)

/-- C14. Every module block gets at most two issues (`checkModuleBlock` returns at most
two, or it panics in `AsString`, before any issue); and when the version of a module
block with a known source fails `ValidateFormat` while both majors extract and are not an
entry of the source, the block gets the format issue and then the compatibility issue
(the recommendation when the source has an entry for the provider major, the missing
mapping otherwise), both at the range of the version attribute, from `checkModuleBlock`
and from `Check`. -/
theorem checkModuleBlock_format_then_compatibility :
    (∀ (block : Block) (awsProviderVersion : String),
      AwsModuleVersionRule.checkModuleBlock block awsProviderVersion = .error (.panic []) ∨
      ∃ issues, AwsModuleVersionRule.checkModuleBlock block awsProviderVersion = .ok issues ∧
        issues.length ≤ 2) ∧
    (∀ (block : Block) (awsProviderVersion : String) (sourceAttr versionAttr : Attribute)
      (source moduleVersion : String) (versionMap : List sourceVersion) (p m : Int),
      IsKnownModule block sourceAttr versionAttr source moduleVersion versionMap →
      ValidateFormat moduleVersion = false →
      extractMajorVersion awsProviderVersion = p → extractMajorVersion moduleVersion = m →
      p ≠ -1 → m ≠ -1 → (⟨p, m⟩ : sourceVersion) ∉ versionMap →
      AwsModuleVersionRule.checkModuleBlock block awsProviderVersion =
        .ok [⟨"aws_module_version_rule", formatMessage ("Module " ++ source) moduleVersion,
            versionAttr.Expr.Range⟩,
          ⟨"aws_module_version_rule",
            if recommendedLoop p versionMap ≠ -1 then
              notCompatibleMessage source m awsProviderVersion (recommendedLoop p versionMap) p
            else noMappingMessage source m awsProviderVersion,
            versionAttr.Expr.Range⟩] ∧
      CheckEmitsForBlock block awsProviderVersion
        [⟨"aws_module_version_rule", formatMessage ("Module " ++ source) moduleVersion,
            versionAttr.Expr.Range⟩,
          ⟨"aws_module_version_rule",
            if recommendedLoop p versionMap ≠ -1 then
              notCompatibleMessage source m awsProviderVersion (recommendedLoop p versionMap) p
            else noMappingMessage source m awsProviderVersion,
            versionAttr.Expr.Range⟩]) := by
  refine ⟨checkModuleBlock_length, ?_⟩
  intro block awsProviderVersion sourceAttr versionAttr source moduleVersion versionMap p m hk
    hfmt hp hm hp1 hm1 hnot
  have hc : compatibleLoop p m versionMap = false :=
    (compatibleLoop_eq_false_iff p m versionMap).2 hnot
  have hb : AwsModuleVersionRule.checkModuleBlock block awsProviderVersion =
      .ok [⟨"aws_module_version_rule", formatMessage ("Module " ++ source) moduleVersion,
          versionAttr.Expr.Range⟩,
        ⟨"aws_module_version_rule",
          if recommendedLoop p versionMap ≠ -1 then
            notCompatibleMessage source m awsProviderVersion (recommendedLoop p versionMap) p
          else noMappingMessage source m awsProviderVersion,
          versionAttr.Expr.Range⟩] := by
    rw [checkModuleBlock_of_known block awsProviderVersion sourceAttr versionAttr source
      moduleVersion versionMap hk, checkRightmostOperator_eq, checkCompatibility_eq, hp, hm,
      if_neg hp1, if_neg hm1, hc, hfmt]
    simp only [Bool.false_eq_true, if_false, List.singleton_append]
    split <;> rfl
  refine ⟨hb, ?_⟩
  exact checkEmitsForBlock_of_ne block awsProviderVersion _ hb
    (ne_empty_of_major awsProviderVersion p hp hp1)

/-- C14 at `Check` on provider `"~> 5.0"` and s3-bucket `"~> 5.1.2"`: the format issue,
then the recommendation of `~> 4.0`. -/
theorem checkModuleBlock_format_then_compatibility_witness :
    AwsModuleVersionRule.Check (testRunner [awsProviderBlock "~> 5.0",
      moduleBlock "s3_bucket" "terraform-aws-modules/s3-bucket/aws" "~> 5.1.2"]) =
      .ok [⟨"aws_module_version_rule",
        "Module terraform-aws-modules/s3-bucket/aws version constraint should use '~> x.y' format where x is the major version and y is the minor version (no patch version), got: ~> 5.1.2",
        ⟨"resource.tf", ⟨13, 13, 0⟩, ⟨13, 23, 0⟩⟩⟩,
       ⟨"aws_module_version_rule",
        "Module terraform-aws-modules/s3-bucket/aws version ~> 5.0 is not compatible with AWS provider version ~> 5.0. Use module version ~> 4.0 for AWS provider ~> 5.0",
        ⟨"resource.tf", ⟨13, 13, 0⟩, ⟨13, 23, 0⟩⟩⟩] :=
  (checkModuleBlock_format_then_compatibility.2
    (moduleBlock "s3_bucket" "terraform-aws-modules/s3-bucket/aws" "~> 5.1.2") "~> 5.0"
    (stringAttribute "terraform-aws-modules/s3-bucket/aws" 12) (stringAttribute "~> 5.1.2" 13)
    "terraform-aws-modules/s3-bucket/aws" "~> 5.1.2" [⟨5, 4⟩, ⟨6, 5⟩] 5 5
    ⟨rfl, rfl, rfl, by decide, rfl, rfl, rfl⟩ (by decide) (by decide) (by decide) (by decide)
    (by decide) (by decide)).2
    (testRunner [awsProviderBlock "~> 5.0",
      moduleBlock "s3_bucket" "terraform-aws-modules/s3-bucket/aws" "~> 5.1.2"])
    [] [] "resource.tf" [] [awsProviderBlock "~> 5.0"] [] rfl (by rfl) rfl

/-- The issues of a module block with a known source when a major does not extract: the
format issue, if any. -/
theorem checkModuleBlock_of_extraction_fails (block : Block) (awsProviderVersion : String)
    (sourceAttr versionAttr : Attribute) (source moduleVersion : String)
    (versionMap : List sourceVersion)
    (hk : IsKnownModule block sourceAttr versionAttr source moduleVersion versionMap)
    (hfail : extractMajorVersion awsProviderVersion = -1 ∨
      extractMajorVersion moduleVersion = -1) :
    AwsModuleVersionRule.checkModuleBlock block awsProviderVersion =
      .ok (if ValidateFormat moduleVersion = true then []
      else [⟨"aws_module_version_rule", formatMessage ("Module " ++ source) moduleVersion,
        versionAttr.Expr.Range⟩]) := by
  rw [checkModuleBlock_of_known block awsProviderVersion sourceAttr versionAttr source
    moduleVersion versionMap hk, checkRightmostOperator_eq, checkCompatibility_eq]
  have hc : (if extractMajorVersion awsProviderVersion = -1 then ([] : List Issue)
      else if extractMajorVersion moduleVersion = -1 then []
      else if compatibleLoop (extractMajorVersion awsProviderVersion)
          (extractMajorVersion moduleVersion) versionMap = true then []
      else if recommendedLoop (extractMajorVersion awsProviderVersion) versionMap ≠ -1 then
        [⟨"aws_module_version_rule",
          notCompatibleMessage source (extractMajorVersion moduleVersion) awsProviderVersion
            (recommendedLoop (extractMajorVersion awsProviderVersion) versionMap)
            (extractMajorVersion awsProviderVersion), versionAttr.Expr.Range⟩]
      else
        [⟨"aws_module_version_rule",
          noMappingMessage source (extractMajorVersion moduleVersion) awsProviderVersion,
          versionAttr.Expr.Range⟩]) = [] := by
    rcases hfail with h | h
    · rw [if_pos h]
    · rw [if_pos h]; split <;> rfl
  rw [hc, List.append_nil]

/-- C15 fails as stated: the located provider version is the empty string, on which
`extractMajorVersion` fails, the version `">= 4.0"` of the s3-bucket module fails
`ValidateFormat`, the block on its own would get the format issue, and `Check` emits
nothing. -/
theorem check_empty_provider_version_no_format_issue :
    AwsModuleVersionRule.awsVersionOfFiles
      [("resource.tf", (⟨some ⟨[], [awsProviderBlock "",
        moduleBlock "s3_bucket" "terraform-aws-modules/s3-bucket/aws" ">= 4.0"]⟩⟩ : File))] =
      .ok (some "") ∧
    extractMajorVersion "" = -1 ∧
    ValidateFormat ">= 4.0" = false ∧
    AwsModuleVersionRule.checkModuleBlock
      (moduleBlock "s3_bucket" "terraform-aws-modules/s3-bucket/aws" ">= 4.0") "" =
      .ok [⟨"aws_module_version_rule",
        "Module terraform-aws-modules/s3-bucket/aws version constraint should use '~> x.y' format where x is the major version and y is the minor version (no patch version), got: >= 4.0",
        lineRange 13⟩] ∧
    AwsModuleVersionRule.Check (testRunner [awsProviderBlock "",
      moduleBlock "s3_bucket" "terraform-aws-modules/s3-bucket/aws" ">= 4.0"]) = .ok [] :=
  ⟨by rfl, by decide, by decide, by rfl, by rfl⟩

/-- C15, amended. When the located provider version is not the empty string and
`extractMajorVersion` fails on it or on the version of a module block with a known
source, the rule emits no compatibility issue for the block: the block's issues are the
single format issue when the version fails `ValidateFormat`, and none otherwise. -/
theorem check_extraction_fails (block : Block) (awsProviderVersion : String)
    (sourceAttr versionAttr : Attribute) (source moduleVersion : String)
    (versionMap : List sourceVersion)
    (hne : awsProviderVersion ≠ "")
    (hk : IsKnownModule block sourceAttr versionAttr source moduleVersion versionMap)
    (hfail : extractMajorVersion awsProviderVersion = -1 ∨
      extractMajorVersion moduleVersion = -1) :
    AwsModuleVersionRule.checkModuleBlock block awsProviderVersion =
      .ok (if ValidateFormat moduleVersion = true then []
      else [⟨"aws_module_version_rule", formatMessage ("Module " ++ source) moduleVersion,
        versionAttr.Expr.Range⟩]) ∧
    CheckEmitsForBlock block awsProviderVersion
      (if ValidateFormat moduleVersion = true then []
      else [⟨"aws_module_version_rule", formatMessage ("Module " ++ source) moduleVersion,
        versionAttr.Expr.Range⟩]) := by
  have hb := checkModuleBlock_of_extraction_fails block awsProviderVersion sourceAttr
    versionAttr source moduleVersion versionMap hk hfail
  refine ⟨hb, ?_⟩
  exact checkEmitsForBlock_of_ne block awsProviderVersion _ hb hne

/-- C15, amended, at the test `module with invalid version operator`: provider `"~> 5.0"`
and s3-bucket `">= 4.0"`, whose major does not extract, give only the format issue; so
does the test `module with patch version in constraint`, `"~> 4.1.2"`, whose major 4 is
compatible. -/
theorem check_extraction_fails_witness :
    AwsModuleVersionRule.Check (testRunner [awsProviderBlock "~> 5.0",
      moduleBlock "s3_bucket" "terraform-aws-modules/s3-bucket/aws" ">= 4.0"]) =
      .ok [⟨"aws_module_version_rule",
        "Module terraform-aws-modules/s3-bucket/aws version constraint should use '~> x.y' format where x is the major version and y is the minor version (no patch version), got: >= 4.0",
        lineRange 13⟩] ∧
    AwsModuleVersionRule.Check (testRunner [awsProviderBlock "~> 5.0",
      moduleBlock "s3_bucket" "terraform-aws-modules/s3-bucket/aws" "~> 4.1.2"]) =
      .ok [⟨"aws_module_version_rule",
        "Module terraform-aws-modules/s3-bucket/aws version constraint should use '~> x.y' format where x is the major version and y is the minor version (no patch version), got: ~> 4.1.2",
        ⟨"resource.tf", ⟨13, 13, 0⟩, ⟨13, 23, 0⟩⟩⟩] :=
  ⟨(check_extraction_fails
      (moduleBlock "s3_bucket" "terraform-aws-modules/s3-bucket/aws" ">= 4.0") "~> 5.0"
      (stringAttribute "terraform-aws-modules/s3-bucket/aws" 12) (stringAttribute ">= 4.0" 13)
      "terraform-aws-modules/s3-bucket/aws" ">= 4.0" [⟨5, 4⟩, ⟨6, 5⟩]
      (by decide) ⟨rfl, rfl, rfl, by decide, rfl, rfl, rfl⟩ (Or.inr (by decide))).2
      (testRunner [awsProviderBlock "~> 5.0",
        moduleBlock "s3_bucket" "terraform-aws-modules/s3-bucket/aws" ">= 4.0"])
      [] [] "resource.tf" [] [awsProviderBlock "~> 5.0"] [] rfl (by rfl) rfl,
   by rfl⟩

/-! ## The Format Rule -/

theorem hasAttribute_object (fields : List (String × Value)) (name : String) :
    (Value.object fields).Type.HasAttribute name = (fields.lookup name).isSome := by
  simp only [Value.Type, CtyType.HasAttribute]
  induction fields with
  | nil => rfl
  | cons x xs ih =>
    obtain ⟨k, v⟩ := x
    by_cases hk : name = k
    · subst hk; simp [List.lookup]
    · have hk' : (name == k) = false := by simpa using hk
      simp only [List.map_cons, List.contains_cons, hk', Bool.false_or, List.lookup, ih]

theorem isObjectType_object (fields : List (String × Value)) :
    (Value.object fields).Type.IsObjectType = true := rfl

theorem getAttr_object (fields : List (String × Value)) (name : String) (attr : Value)
    (h : fields.lookup name = some attr) : (Value.object fields).GetAttr name = .ok attr := by
  simp only [Value.GetAttr, h]

/-- What the loop body of `checkTerraformBlock` does with an attribute, by the value it
evaluates to: one issue for an object whose `version` is a string that fails
`ValidateFormat`, a panic for a null of an object type that has the attribute `version`,
and nothing for every other value. -/
theorem checkRequiredProvider_eq (name : String) (attr : Attribute) :
    RightmostOperatorRule.checkRequiredProvider name attr =
      if attr.Expr.HasErrors = true then .ok []
      else
        match attr.Expr.Value with
        | .object fields =>
          match fields.lookup "version" with
          | some (.string v) =>
            .ok (if ValidateFormat v = true then []
              else [⟨"rightmost_operator_rule", formatMessage ("Provider " ++ name) v,
                attr.Expr.Range⟩])
          | _ => .ok []
        | .null (.object attributes) =>
          if attributes.contains "version" = true then .error (.panic []) else .ok []
        | _ => .ok [] := by
  unfold RightmostOperatorRule.checkRequiredProvider
  cases herr : attr.Expr.HasErrors with
  | true => simp
  | false =>
    simp only [Bool.false_eq_true, if_false]
    cases hval : attr.Expr.Value with
    | object fields =>
      rw [isObjectType_object, hasAttribute_object]
      cases hl : fields.lookup "version" with
      | none => simp [hl]
      | some w =>
        rw [getAttr_object fields "version" w hl]
        cases w with
        | string v =>
          simp [hl, Value.Type, Value.IsNull, Value.AsString, checkVersionConstraint_eq]
        | object a => simp [hl, Value.Type, Value.IsNull]
        | null ty => simp [hl, Value.IsNull]
        | other => simp [hl, Value.Type, Value.IsNull]
    | string s => simp [Value.Type, CtyType.IsObjectType]
    | null ty =>
      cases ty with
      | object attributes =>
        cases hc : attributes.contains "version" with
        | true => simp only [Value.Type, CtyType.IsObjectType, CtyType.HasAttribute, hc,
            Bool.and_self, if_true, Value.GetAttr]
        | false => simp only [Value.Type, CtyType.IsObjectType, CtyType.HasAttribute, hc,
            Bool.and_false, Bool.false_eq_true, if_false]
      | string => simp [Value.Type, CtyType.IsObjectType]
      | other => simp [Value.Type, CtyType.IsObjectType]
    | other => simp [Value.Type, CtyType.IsObjectType]

/-- What `checkProviderBlock` does with a block, by the value its `version` attribute
evaluates to: one issue for a string that fails `ValidateFormat`, a panic for a null of
type string, and nothing for every other value. -/
theorem checkProviderBlock_eq (block : Block) :
    RightmostOperatorRule.checkProviderBlock block =
      match block.Body.Attributes.lookup "version" with
      | none => .ok []
      | some attr =>
        if attr.Expr.HasErrors = true then .ok []
        else
          match attr.Expr.Value with
          | .string v =>
            .ok (if ValidateFormat v = true then []
              else [⟨"rightmost_operator_rule",
                formatMessage ("Provider " ++ block.Labels.headD "") v, attr.Expr.Range⟩])
          | .null .string => .error (.panic [])
          | _ => .ok [] := by
  unfold RightmostOperatorRule.checkProviderBlock
  cases hl : block.Body.Attributes.lookup "version" with
  | none => rfl
  | some attr =>
    simp only
    cases herr : attr.Expr.HasErrors with
    | true => simp
    | false =>
      cases hval : attr.Expr.Value with
      | string v => simp [Value.Type, Value.AsString, checkVersionConstraint_eq]
      | object a => simp [Value.Type]
      | null ty => cases ty <;> simp [Value.Type, Value.AsString]
      | other => simp [Value.Type]

/-- C16 fails on the code. The attribute `aws = true ? null : { source = "hashicorp/aws",
version = ">= 3.0" }` of a `required_providers` block evaluates without error to a null
of an object type that has the attribute `version`; it is no object with a string
`version` field, so it is to get no issue. It passes the test
`val.Type().IsObjectType() && val.Type().HasAttribute("version")`, and `GetAttr` panics on
the null: `checkTerraformBlock` does not return and `Check` stops, before the issue of a
provider that comes after it and after the issue of one that comes before. An object
whose `version` is a null of type string is
skipped (the guard `!versionVal.IsNull()`), and the block of the test with aws `"~> 4.0"`,
google `">= 3.0"` and azurerm `"3.10.0"` gets the two issues for google and azurerm. -/
theorem checkTerraformBlock_null_object_panics :
    declaredVersion (nullAttribute (.object ["source", "version"]) 4) = none ∧
    RightmostOperatorRule.checkRequiredProvider "aws"
      (nullAttribute (.object ["source", "version"]) 4) = .error (.panic []) ∧
    RightmostOperatorRule.Check (testRunner [requiredProvidersBlock
      [("aws", nullAttribute (.object ["source", "version"]) 4)]]) = .error (.panic []) ∧
    RightmostOperatorRule.Check (testRunner [requiredProvidersBlock
      [("aws", nullAttribute (.object ["source", "version"]) 4),
        providerEntry "google" "hashicorp/google" ">= 3.0" 8]]) = .error (.panic []) ∧
    RightmostOperatorRule.Check (testRunner [requiredProvidersBlock
      [providerEntry "google" "hashicorp/google" ">= 3.0" 4,
        ("aws", nullAttribute (.object ["source", "version"]) 8)]]) =
      .error (.panic [⟨"rightmost_operator_rule",
        "Provider google version constraint should use '~> x.y' format where x is the major version and y is the minor version (no patch version), got: >= 3.0",
        ⟨"resource.tf", ⟨4, 14, 0⟩, ⟨7, 6, 0⟩⟩⟩]) ∧
    RightmostOperatorRule.checkRequiredProvider "aws"
      ⟨⟨.object [("source", .string "hashicorp/aws"), ("version", .null .string)], false,
        lineRange 4⟩⟩ = .ok [] ∧
    RightmostOperatorRule.Check (testRunner [requiredProvidersBlock
      [providerEntry "aws" "hashicorp/aws" "~> 4.0" 4,
        providerEntry "google" "hashicorp/google" ">= 3.0" 8,
        providerEntry "azurerm" "hashicorp/azurerm" "3.10.0" 12]]) =
      .ok [⟨"rightmost_operator_rule",
        "Provider google version constraint should use '~> x.y' format where x is the major version and y is the minor version (no patch version), got: >= 3.0",
        ⟨"resource.tf", ⟨8, 14, 0⟩, ⟨11, 6, 0⟩⟩⟩,
       ⟨"rightmost_operator_rule",
        "Provider azurerm version constraint should use '~> x.y' format where x is the major version and y is the minor version (no patch version), got: 3.10.0",
        ⟨"resource.tf", ⟨12, 15, 0⟩, ⟨15, 6, 0⟩⟩⟩] :=
  ⟨by rfl, by rfl, by rfl, by rfl, by rfl, by rfl, by rfl⟩

/-- C17 fails on the code. The attribute `version = true ? null : ">= 4.0"` of a block
`provider "aws"` evaluates without error to a null of type string, not to a string, so the
block is to get no issue. It passes the test `val.Type() == cty.String`, which
`checkProviderBlock` makes without the guard `!val.IsNull()` of `checkTerraformBlock`,
and `AsString` panics: `checkProviderBlock` does not return and `Check` stops. The
literal `null`, a null of another type, is skipped; `provider "aws"` with `">= 4.0"` gets
one issue, with `"~> 4.0"` none, and a provider block without a label none. -/
theorem checkProviderBlock_null_version_panics :
    RightmostOperatorRule.checkProviderBlock
      (.mk "provider" ["aws"] [("version", nullAttribute .string 3),
        ("region", stringAttribute "us-east-1" 4)] []) = .error (.panic []) ∧
    RightmostOperatorRule.Check (testRunner
      [.mk "provider" ["aws"] [("version", nullAttribute .string 3),
        ("region", stringAttribute "us-east-1" 4)] []]) = .error (.panic []) ∧
    RightmostOperatorRule.Check (testRunner
      [.mk "provider" ["aws"] [("version", nullAttribute .other 3),
        ("region", stringAttribute "us-east-1" 4)] []]) = .ok [] ∧
    RightmostOperatorRule.Check (testRunner [providerBlock ["aws"] ">= 4.0"]) =
      .ok [⟨"rightmost_operator_rule",
        "Provider aws version constraint should use '~> x.y' format where x is the major version and y is the minor version (no patch version), got: >= 4.0",
        lineRange 3⟩] ∧
    RightmostOperatorRule.Check (testRunner [providerBlock ["aws"] "~> 4.0"]) = .ok [] ∧
    RightmostOperatorRule.Check (testRunner [providerBlock [] ">= 4.0"]) = .ok [] :=
  ⟨by rfl, by rfl, by rfl, by rfl, by rfl, by rfl⟩

theorem formatRule_checkFile_append (attrs : List (String × Attribute)) (b1 b2 : List Block) :
    RightmostOperatorRule.checkFile ⟨some ⟨attrs, b1 ++ b2⟩⟩ =
      andThen (RightmostOperatorRule.checkFile ⟨some ⟨attrs, b1⟩⟩)
        (RightmostOperatorRule.checkFile ⟨some ⟨attrs, b2⟩⟩) := by
  simp only [RightmostOperatorRule.checkFile, forEach_append]

theorem formatRule_checkFile_cons (attrs : List (String × Attribute)) (block : Block)
    (b2 : List Block) :
    RightmostOperatorRule.checkFile ⟨some ⟨attrs, block :: b2⟩⟩ =
      andThen (RightmostOperatorRule.checkFile ⟨some ⟨attrs, [block]⟩⟩)
        (RightmostOperatorRule.checkFile ⟨some ⟨attrs, b2⟩⟩) :=
  formatRule_checkFile_append attrs [block] b2

theorem formatRule_checkFile_block (attrs : List (String × Attribute)) (block : Block) :
    RightmostOperatorRule.checkFile ⟨some ⟨attrs, [block]⟩⟩ =
      if isInspected block = true then
        RightmostOperatorRule.checkFile ⟨some ⟨[], [block]⟩⟩
      else .ok [] := by
  by_cases h1 : block.Type = "terraform"
  · simp [RightmostOperatorRule.checkFile, isInspected, h1]
  · by_cases h2 : block.Type = "provider"
    · simp [RightmostOperatorRule.checkFile, isInspected, h1, h2]
    · simp [RightmostOperatorRule.checkFile, isInspected, h1, h2, forEach, andThen]

/-- The run of a file is that of its inspected blocks. -/
theorem formatRule_checkFile_inspected (file : File) :
    RightmostOperatorRule.checkFile file =
      RightmostOperatorRule.checkFile ⟨some ⟨[], inspectedBlocks file⟩⟩ := by
  obtain ⟨body⟩ := file
  cases body with
  | none => rfl
  | some body =>
    obtain ⟨attrs, blocks⟩ := body
    simp only [inspectedBlocks]
    induction blocks with
    | nil => rfl
    | cons b bs ih =>
      rw [formatRule_checkFile_cons, ih, formatRule_checkFile_block]
      by_cases hb : isInspected b = true
      · rw [if_pos hb, List.filter_cons_of_pos hb]
        exact (formatRule_checkFile_cons [] b _).symm
      · rw [if_neg hb, List.filter_cons_of_neg hb, andThen_ok_nil_left]

theorem formatRule_check_inspected (files : List (String × File)) :
    RightmostOperatorRule.Check ⟨.ok files⟩ =
      RightmostOperatorRule.checkFile
        ⟨some ⟨[], files.flatMap fun nf => inspectedBlocks nf.2⟩⟩ := by
  simp only [RightmostOperatorRule.Check]
  induction files with
  | nil => rfl
  | cons nf rest ih =>
    rw [forEach_cons, List.flatMap_cons, ih, formatRule_checkFile_append,
      ← formatRule_checkFile_inspected]

/-- C18. The run of the Format Rule depends only on the top-level blocks of type
`terraform` and `provider`: two document sets with the same such blocks, in the same
order, get the same issues, so adding, removing or altering a block of another type
changes nothing; and a block of type `module` contributes no issue. -/
theorem formatRule_frame :
    (∀ files files' : List (String × File),
      (files.flatMap fun nf => inspectedBlocks nf.2) =
        (files'.flatMap fun nf => inspectedBlocks nf.2) →
      RightmostOperatorRule.Check ⟨.ok files⟩ = RightmostOperatorRule.Check ⟨.ok files'⟩) ∧
    (∀ (attrs : List (String × Attribute)) (b1 b2 : List Block) (block : Block),
      block.Type ≠ "terraform" → block.Type ≠ "provider" →
      RightmostOperatorRule.checkFile ⟨some ⟨attrs, b1 ++ block :: b2⟩⟩ =
        RightmostOperatorRule.checkFile ⟨some ⟨attrs, b1 ++ b2⟩⟩) ∧
    (∀ (attrs : List (String × Attribute)) (b1 b2 : List Block) (block block' : Block),
      block.Type ≠ "terraform" → block.Type ≠ "provider" →
      block'.Type ≠ "terraform" → block'.Type ≠ "provider" →
      RightmostOperatorRule.checkFile ⟨some ⟨attrs, b1 ++ block :: b2⟩⟩ =
        RightmostOperatorRule.checkFile ⟨some ⟨attrs, b1 ++ block' :: b2⟩⟩) ∧
    (∀ (attrs : List (String × Attribute)) (block : Block), block.Type = "module" →
      RightmostOperatorRule.checkFile ⟨some ⟨attrs, [block]⟩⟩ = .ok []) := by
  have hskip : ∀ (attrs : List (String × Attribute)) (b1 b2 : List Block) (block : Block),
      block.Type ≠ "terraform" → block.Type ≠ "provider" →
      RightmostOperatorRule.checkFile ⟨some ⟨attrs, b1 ++ block :: b2⟩⟩ =
        RightmostOperatorRule.checkFile ⟨some ⟨attrs, b1 ++ b2⟩⟩ := by
    intro attrs b1 b2 block h1 h2
    rw [formatRule_checkFile_append, formatRule_checkFile_cons, formatRule_checkFile_block,
      formatRule_checkFile_append]
    have : isInspected block = false := by simp [isInspected, h1, h2]
    simp [this, andThen_ok_nil_left]
  refine ⟨?_, hskip, ?_, ?_⟩
  · intro files files' h
    rw [formatRule_check_inspected, formatRule_check_inspected, h]
  · intro attrs b1 b2 block block' h1 h2 h3 h4
    rw [hskip attrs b1 b2 block h1 h2, hskip attrs b1 b2 block' h3 h4]
  · intro attrs block h
    have := hskip attrs [] [] block (by rw [h]; decide) (by rw [h]; decide)
    simpa using this

/-- C18 at the test with modules: the module block of `main.tf` contributes nothing, with
or without it the rule reports the one issue of `modules/example/main.tf`. -/
theorem formatRule_frame_witness :
    RightmostOperatorRule.Check ⟨.ok
      [("main.tf", ⟨some ⟨[],
          [.mk "module" ["example"]
            [("source", stringAttributeAt "main.tf" 3 12 "./modules/example")] [],
          requiredProvidersBlock
            [providerEntryAt "main.tf" 8 "aws" "hashicorp/aws" "~> 4.0"]]⟩⟩),
        ("modules/example/main.tf", ⟨some ⟨[],
          [requiredProvidersBlock [providerEntryAt "modules/example/main.tf" 4 "google"
            "hashicorp/google" ">= 3.0"]]⟩⟩)]⟩ =
    RightmostOperatorRule.Check ⟨.ok
      [("main.tf", ⟨some ⟨[],
          [requiredProvidersBlock
            [providerEntryAt "main.tf" 8 "aws" "hashicorp/aws" "~> 4.0"]]⟩⟩),
        ("modules/example/main.tf", ⟨some ⟨[],
          [requiredProvidersBlock [providerEntryAt "modules/example/main.tf" 4 "google"
            "hashicorp/google" ">= 3.0"]]⟩⟩)]⟩ ∧
    RightmostOperatorRule.Check ⟨.ok
      [("main.tf", ⟨some ⟨[],
          [.mk "module" ["example"]
            [("source", stringAttributeAt "main.tf" 3 12 "./modules/example")] [],
          requiredProvidersBlock
            [providerEntryAt "main.tf" 8 "aws" "hashicorp/aws" "~> 4.0"]]⟩⟩),
        ("modules/example/main.tf", ⟨some ⟨[],
          [requiredProvidersBlock [providerEntryAt "modules/example/main.tf" 4 "google"
            "hashicorp/google" ">= 3.0"]]⟩⟩)]⟩ =
      .ok [⟨"rightmost_operator_rule",
        "Provider google version constraint should use '~> x.y' format where x is the major version and y is the minor version (no patch version), got: >= 3.0",
        ⟨"modules/example/main.tf", ⟨4, 14, 0⟩, ⟨7, 6, 0⟩⟩⟩] :=
  ⟨formatRule_frame.1 _ _ (by rfl), by rfl⟩

/-! ## Independence of the order of iteration -/

theorem sameOutcome_ok (issues : List Issue) : SameOutcome (.ok issues) (.ok issues) :=
  Or.inr ⟨issues, issues, rfl, rfl, List.Perm.refl _⟩

theorem sameOutcome_panic (emitted emitted' : List Issue) :
    SameOutcome (.error (.panic emitted)) (.error (.panic emitted')) :=
  Or.inl ⟨emitted, emitted', rfl, rfl⟩

theorem SameOutcome.left {r r' : Except Failure (List Issue)} (h : SameOutcome r r') :
    SameOutcome r r := by
  rcases h with ⟨a, -, h1, -⟩ | ⟨a, -, h1, -, -⟩
  · rw [h1]; exact sameOutcome_panic a a
  · rw [h1]; exact sameOutcome_ok a

theorem SameOutcome.trans {r r' r'' : Except Failure (List Issue)} (h : SameOutcome r r')
    (h' : SameOutcome r' r'') : SameOutcome r r'' := by
  rcases h with ⟨a, b, h1, h2⟩ | ⟨a, b, h1, h2, hp⟩
  · rcases h' with ⟨c, d, -, h4⟩ | ⟨c, d, h3, -, -⟩
    · exact Or.inl ⟨a, d, h1, h4⟩
    · rw [h2] at h3; exact absurd h3 (by simp)
  · rcases h' with ⟨c, d, h3, -⟩ | ⟨c, d, h3, h4, hp'⟩
    · rw [h2] at h3; exact absurd h3 (by simp)
    · rw [h2] at h3
      have hbc : b = c := Except.ok.inj h3
      subst hbc
      exact Or.inr ⟨a, d, h1, h4, hp.trans hp'⟩

theorem SameOutcome.andThen {a a' b b' : Except Failure (List Issue)} (ha : SameOutcome a a')
    (hb : SameOutcome b b') : SameOutcome (andThen a b) (andThen a' b') := by
  rcases ha with ⟨x, x', h1, h2⟩ | ⟨x, x', h1, h2, hp⟩
  · rw [h1, h2]; exact sameOutcome_panic x x'
  · rcases hb with ⟨y, y', h3, h4⟩ | ⟨y, y', h3, h4, hq⟩
    · rw [h1, h2, h3, h4]; exact sameOutcome_panic (x ++ y) (x' ++ y')
    · rw [h1, h2, h3, h4]
      exact Or.inr ⟨x ++ y, x' ++ y', rfl, rfl, hp.append hq⟩

/-- What the innermost loop body of `getAwsProviderVersion` does with an attribute: for
the name `aws`, it returns the string in the `version` field of an object, panics on a
null of an object type that has the attribute `version`, and goes on for every other
value; an attribute of another name is not evaluated. -/
theorem awsVersionOfAttribute_eq (name : String) (attr : Attribute) :
    AwsModuleVersionRule.awsVersionOfAttribute name attr =
      if name = "aws" then
        if attr.Expr.HasErrors = true then .ok none
        else
          match attr.Expr.Value with
          | .object fields =>
            match fields.lookup "version" with
            | some (.string v) => .ok (some v)
            | _ => .ok none
          | .null (.object attributes) =>
            if attributes.contains "version" = true then .error (.panic []) else .ok none
          | _ => .ok none
      else .ok none := by
  unfold AwsModuleVersionRule.awsVersionOfAttribute
  by_cases hn : name = "aws"
  · simp only [hn, ne_eq, not_true_eq_false, if_false, if_true]
    cases herr : attr.Expr.HasErrors with
    | true => simp
    | false =>
      simp only [Bool.false_eq_true, if_false]
      cases hval : attr.Expr.Value with
      | object fields =>
        rw [isObjectType_object, hasAttribute_object]
        cases hl : fields.lookup "version" with
        | none => simp [hl]
        | some w =>
          rw [getAttr_object fields "version" w hl]
          cases w with
          | string v => simp [hl, Value.Type, Value.IsNull, Value.AsString]
          | object a => simp [hl, Value.Type, Value.IsNull]
          | null ty => simp [hl, Value.IsNull]
          | other => simp [hl, Value.Type, Value.IsNull]
      | string s => simp [Value.Type, CtyType.IsObjectType]
      | null ty =>
        cases ty with
        | object attributes =>
          cases hc : attributes.contains "version" with
          | true => simp only [Value.Type, CtyType.IsObjectType, CtyType.HasAttribute, hc,
              Bool.and_self, if_true, Value.GetAttr]
          | false => simp only [Value.Type, CtyType.IsObjectType, CtyType.HasAttribute, hc,
              Bool.and_false, Bool.false_eq_true, if_false]
        | string => simp [Value.Type, CtyType.IsObjectType]
        | other => simp [Value.Type, CtyType.IsObjectType]
      | other => simp [Value.Type, CtyType.IsObjectType]
  · simp [hn]

/-- C19 fails on the code. In the document `terraform { required_providers { aws = true ?
null : { source = "hashicorp/aws", version = "~> 5.0" } } }` the attribute `aws`
evaluates without error to a null of an object type that has the attribute `version`; no
attribute is an object with a string `version` field, so no version is declared and the
locator is to return not-found. The null passes the test
`val.Type().IsObjectType() && val.Type().HasAttribute("version")`, and `GetAttr` panics on
it: `getAwsProviderVersion` does not return, and neither does `Check`. The same value
under another name is not read, an object whose `version` is a null of type string is
passed over (the guard `!versionVal.IsNull()`), and the version of `versions.tf` in the
test with multiple files is found. -/
theorem getAwsProviderVersion_null_object_panics :
    (∀ v, ¬ DeclaresAwsVersion [("resource.tf", ⟨some ⟨[], [requiredProvidersBlock
      [("aws", nullAttribute (.object ["source", "version"]) 4)]]⟩⟩)] v) ∧
    AwsModuleVersionRule.awsVersionOfAttribute "aws"
      (nullAttribute (.object ["source", "version"]) 4) = .error (.panic []) ∧
    AwsModuleVersionRule.getAwsProviderVersion (testRunner [requiredProvidersBlock
      [("aws", nullAttribute (.object ["source", "version"]) 4)]]) = .error (.panic []) ∧
    AwsModuleVersionRule.Check (testRunner [requiredProvidersBlock
      [("aws", nullAttribute (.object ["source", "version"]) 4)]]) = .error (.panic []) ∧
    AwsModuleVersionRule.getAwsProviderVersion (testRunner [requiredProvidersBlock
      [("google", nullAttribute (.object ["source", "version"]) 4)]]) = .ok "" ∧
    AwsModuleVersionRule.getAwsProviderVersion (testRunner [requiredProvidersBlock
      [("aws", ⟨⟨.object [("source", .string "hashicorp/aws"), ("version", .null .string)],
        false, lineRange 4⟩⟩)]]) = .ok "" ∧
    AwsModuleVersionRule.getAwsProviderVersion ⟨.ok multipleFiles⟩ = .ok "~> 5.0" := by
  refine ⟨?_, by rfl, by rfl, by rfl, by rfl, by rfl, by rfl⟩
  rintro v ⟨nf, hnf, body, hbody, block, hblock, -, inner, hinner, -, attr, hattr, fields,
    hval, -⟩
  simp only [List.mem_singleton] at hnf
  subst hnf
  simp only [Option.some.injEq] at hbody
  subst hbody
  simp only [List.mem_singleton] at hblock
  subst hblock
  simp only [requiredProvidersBlock, Block.Body, List.mem_singleton] at hinner
  subst hinner
  simp only [Block.Body, List.mem_singleton, Prod.mk.injEq, true_and] at hattr
  subst hattr
  simp [nullAttribute] at hval

/-! ## The rule over several module blocks -/

/-- C21 fails on the code. With aws `"~> 5.0"`, a module whose source is `true ? null :
"./modules/custom"` and a vpc module with version `"~> 6.0"`, the vpc module on its own
gets its issue, and the union over the module blocks has it; the source of the first
module evaluates to a null of type string, `AsString` panics on it in `checkModuleBlock`,
and `Check` does not return: the malformed attribute prevents the detection of the issue
of the vpc module, in the same document and from another document (with the vpc module
first, its issue is emitted and `Check` panics after it). Without the malformed module
the rule reports, in the test with mixed validity, the one issue for vpc, and in the test
with multiple files the issue of `main.tf` against the version of `versions.tf`. -/
theorem check_stops_at_null_source :
    AwsModuleVersionRule.Check (testRunner [awsProviderBlock "~> 5.0",
      .mk "module" ["custom"] [("source", nullAttribute .string 12)] [],
      moduleBlockAt "resource.tf" 17 "vpc" "terraform-aws-modules/vpc/aws" "~> 6.0"]) =
      .error (.panic []) ∧
    AwsModuleVersionRule.Check (testRunner [awsProviderBlock "~> 5.0",
      .mk "module" ["custom"] [("source", nullAttribute .string 12)] []]) = .error (.panic []) ∧
    AwsModuleVersionRule.Check (testRunner [awsProviderBlock "~> 5.0",
      moduleBlock "vpc" "terraform-aws-modules/vpc/aws" "~> 6.0",
      .mk "module" ["custom"] [("source", nullAttribute .string 17)] []]) =
      .error (.panic [⟨"aws_module_version_rule",
        "Module terraform-aws-modules/vpc/aws version ~> 6.0 is not compatible with AWS provider version ~> 5.0. Use module version ~> 5.0 for AWS provider ~> 5.0",
        lineRange 13⟩]) ∧
    AwsModuleVersionRule.Check (testRunner [awsProviderBlock "~> 5.0",
      moduleBlockAt "resource.tf" 17 "vpc" "terraform-aws-modules/vpc/aws" "~> 6.0"]) =
      .ok [⟨"aws_module_version_rule",
        "Module terraform-aws-modules/vpc/aws version ~> 6.0 is not compatible with AWS provider version ~> 5.0. Use module version ~> 5.0 for AWS provider ~> 5.0",
        lineRange 18⟩] ∧
    AwsModuleVersionRule.Check ⟨.ok
      [("versions.tf", ⟨some ⟨[], [awsProviderBlockIn "versions.tf" "~> 5.0"]⟩⟩),
        ("custom.tf", ⟨some ⟨[],
          [.mk "module" ["custom"] [("source", nullAttribute .string 12)] []]⟩⟩),
        ("main.tf", ⟨some ⟨[],
          [moduleBlockAt "main.tf" 8 "vpc" "terraform-aws-modules/vpc/aws" "~> 6.0"]⟩⟩)]⟩ =
      .error (.panic []) ∧
    AwsModuleVersionRule.Check (testRunner mixedModules) =
      .ok [⟨"aws_module_version_rule",
        "Module terraform-aws-modules/vpc/aws version ~> 6.0 is not compatible with AWS provider version ~> 5.0. Use module version ~> 5.0 for AWS provider ~> 5.0",
        lineRange 18⟩] ∧
    AwsModuleVersionRule.Check ⟨.ok multipleFiles⟩ =
      .ok [⟨"aws_module_version_rule",
        "Module terraform-aws-modules/s3-bucket/aws version ~> 5.0 is not compatible with AWS provider version ~> 5.0. Use module version ~> 4.0 for AWS provider ~> 5.0",
        ⟨"main.tf", ⟨4, 13, 0⟩, ⟨4, 21, 0⟩⟩⟩] :=
  ⟨by rfl, by rfl, by rfl, by rfl, by rfl, by rfl, by rfl⟩

/-! ## The two copies of the format check -/

/-- C22. The two copies of the format check emit an issue for exactly the same versions,
with the same message `<name> version constraint should use '~> x.y' format ... got:
<version>` at the same range (the issues differ in the name of the rule only), and
`checkModuleBlock` calls its copy with the name `Module <source>`. -/
theorem format_checks_equivalent (v : String) (rng : Range) (n : String) :
    (AwsModuleVersionRule.checkRightmostOperator v rng n = [] ↔
      RightmostOperatorRule.checkVersionConstraint v rng n = []) ∧
    (AwsModuleVersionRule.checkRightmostOperator v rng n).map (fun i => (i.Message, i.Range)) =
      (RightmostOperatorRule.checkVersionConstraint v rng n).map
        (fun i => (i.Message, i.Range)) ∧
    (∀ i ∈ AwsModuleVersionRule.checkRightmostOperator v rng n,
      i.Message = n ++ " version constraint should use '~> x.y' format where x is the major version and y is the minor version (no patch version), got: " ++ v) ∧
    (∀ i ∈ RightmostOperatorRule.checkVersionConstraint v rng n,
      i.Message = n ++ " version constraint should use '~> x.y' format where x is the major version and y is the minor version (no patch version), got: " ++ v) ∧
    (∀ (block : Block) (awsProviderVersion : String) (sourceAttr versionAttr : Attribute)
      (source : String) (versionMap : List sourceVersion),
      IsKnownModule block sourceAttr versionAttr source v versionMap →
      AwsModuleVersionRule.checkModuleBlock block awsProviderVersion =
        .ok (AwsModuleVersionRule.checkRightmostOperator v versionAttr.Expr.Range
            ("Module " ++ source) ++
          AwsModuleVersionRule.checkCompatibility versionMap source v versionAttr.Expr.Range
            awsProviderVersion)) := by
  rw [checkRightmostOperator_eq, checkVersionConstraint_eq]
  refine ⟨?_, ?_, ?_, ?_, ?_⟩
  · by_cases h : ValidateFormat v = true <;> simp [h]
  · by_cases h : ValidateFormat v = true <;> simp [h]
  · intro i hi
    by_cases h : ValidateFormat v = true
    · simp [h] at hi
    · simp only [h, Bool.false_eq_true, if_false, List.mem_singleton] at hi
      rw [hi]; rfl
  · intro i hi
    by_cases h : ValidateFormat v = true
    · simp [h] at hi
    · simp only [h, Bool.false_eq_true, if_false, List.mem_singleton] at hi
      rw [hi]; rfl
  · intro block awsProviderVersion sourceAttr versionAttr source versionMap hk
    rw [checkModuleBlock_of_known block awsProviderVersion sourceAttr versionAttr source v
      versionMap hk, checkRightmostOperator_eq]

/-- C22 at the version `">= 4.0"` of the test `module with invalid version operator`: both
copies emit the same message for the name `Module terraform-aws-modules/s3-bucket/aws`. -/
theorem format_checks_equivalent_witness :
    (AwsModuleVersionRule.checkRightmostOperator ">= 4.0" (lineRange 13)
        "Module terraform-aws-modules/s3-bucket/aws").map (fun i => (i.Message, i.Range)) =
      (RightmostOperatorRule.checkVersionConstraint ">= 4.0" (lineRange 13)
        "Module terraform-aws-modules/s3-bucket/aws").map (fun i => (i.Message, i.Range)) ∧
    AwsModuleVersionRule.checkRightmostOperator ">= 4.0" (lineRange 13)
        "Module terraform-aws-modules/s3-bucket/aws" =
      [⟨"aws_module_version_rule",
        "Module terraform-aws-modules/s3-bucket/aws version constraint should use '~> x.y' format where x is the major version and y is the minor version (no patch version), got: >= 4.0",
        lineRange 13⟩] :=
  ⟨(format_checks_equivalent ">= 4.0" (lineRange 13)
      "Module terraform-aws-modules/s3-bucket/aws").2.1, by rfl⟩

/-! ## The recommendation, for any table -/

/-- A recommendation that is not the sentinel is the module major of an entry for the
provider major. -/
theorem recommendedLoop_mem (p : Int) (versionMap : List sourceVersion)
    (h : recommendedLoop p versionMap ≠ -1) :
    (⟨p, recommendedLoop p versionMap⟩ : sourceVersion) ∈ versionMap := by
  induction versionMap with
  | nil => exact absurd rfl h
  | cons e es ih =>
    unfold recommendedLoop at h ⊢
    by_cases he : e.Provider = p
    · rw [if_pos he]
      obtain ⟨ep, em⟩ := e
      simp only at he
      subst he
      simp
    · rw [if_neg he] at h ⊢
      exact List.mem_cons_of_mem _ (ih h)

/-- C23. For any table entries: the compatibility part of `checkModuleBlock` emits
nothing, the missing-mapping issue, or the `not compatible` issue built from the
recommendation `r` of the recommendation loop; and whenever it emits the latter, both
majors have been extracted, `r` differs from the module major `m`, and `r` is compatible
with the provider major `p` (the compatibility loop accepts `p` and `r`).  For a module
block with a known source this is `IsCompatible source p r`. -/
theorem notCompatible_recommendation_compatible (versionMap : List sourceVersion)
    (source moduleVersion : String) (rng : Range) (awsProviderVersion : String) :
    (AwsModuleVersionRule.checkCompatibility versionMap source moduleVersion rng
        awsProviderVersion = [] ∨
      AwsModuleVersionRule.checkCompatibility versionMap source moduleVersion rng
        awsProviderVersion =
        [⟨"aws_module_version_rule",
          noMappingMessage source (extractMajorVersion moduleVersion) awsProviderVersion,
          rng⟩] ∨
      AwsModuleVersionRule.checkCompatibility versionMap source moduleVersion rng
        awsProviderVersion =
        [⟨"aws_module_version_rule",
          notCompatibleMessage source (extractMajorVersion moduleVersion) awsProviderVersion
            (recommendedLoop (extractMajorVersion awsProviderVersion) versionMap)
            (extractMajorVersion awsProviderVersion), rng⟩]) ∧
    (AwsModuleVersionRule.checkCompatibility versionMap source moduleVersion rng
        awsProviderVersion =
        [⟨"aws_module_version_rule",
          notCompatibleMessage source (extractMajorVersion moduleVersion) awsProviderVersion
            (recommendedLoop (extractMajorVersion awsProviderVersion) versionMap)
            (extractMajorVersion awsProviderVersion), rng⟩] →
      extractMajorVersion awsProviderVersion ≠ -1 ∧ extractMajorVersion moduleVersion ≠ -1 ∧
      recommendedLoop (extractMajorVersion awsProviderVersion) versionMap ≠
        extractMajorVersion moduleVersion ∧
      compatibleLoop (extractMajorVersion awsProviderVersion)
        (recommendedLoop (extractMajorVersion awsProviderVersion) versionMap) versionMap =
        true ∧
      compatibleLoop (extractMajorVersion awsProviderVersion)
        (extractMajorVersion moduleVersion) versionMap = false) ∧
    (sourceVersionMap.lookup source = some versionMap →
      IsCompatible source (extractMajorVersion awsProviderVersion)
          (recommendedLoop (extractMajorVersion awsProviderVersion) versionMap) =
        compatibleLoop (extractMajorVersion awsProviderVersion)
          (recommendedLoop (extractMajorVersion awsProviderVersion) versionMap)
          versionMap) := by
  rw [checkCompatibility_eq]
  refine ⟨?_, ?_, ?_⟩
  · repeat' split
    all_goals simp
  · intro h
    by_cases hp : extractMajorVersion awsProviderVersion = -1
    · rw [if_pos hp] at h; exact absurd h (by simp)
    rw [if_neg hp] at h
    by_cases hm : extractMajorVersion moduleVersion = -1
    · rw [if_pos hm] at h; exact absurd h (by simp)
    rw [if_neg hm] at h
    cases hc : compatibleLoop (extractMajorVersion awsProviderVersion)
        (extractMajorVersion moduleVersion) versionMap with
    | true => rw [hc, if_pos rfl] at h; exact absurd h (by simp)
    | false =>
      rw [hc, if_neg (by decide)] at h
      by_cases hr : recommendedLoop (extractMajorVersion awsProviderVersion) versionMap ≠ -1
      · have hmem := recommendedLoop_mem _ versionMap hr
        have hcr : compatibleLoop (extractMajorVersion awsProviderVersion)
            (recommendedLoop (extractMajorVersion awsProviderVersion) versionMap)
            versionMap = true :=
          (compatibleLoop_iff _ _ versionMap).2 ⟨_, hmem, rfl, rfl⟩
        refine ⟨hp, hm, ?_, hcr, rfl⟩
        intro heq
        rw [heq, hc] at hcr
        exact absurd hcr (by decide)
      · rw [if_neg hr] at h
        have h1 : noMappingMessage source (extractMajorVersion moduleVersion)
            awsProviderVersion =
            notCompatibleMessage source (extractMajorVersion moduleVersion)
              awsProviderVersion
              (recommendedLoop (extractMajorVersion awsProviderVersion) versionMap)
              (extractMajorVersion awsProviderVersion) := by
          have h2 := List.head_eq_of_cons_eq h
          exact congrArg Issue.Message h2
        exact absurd h1.symm (noMapping_ne_notCompatible _ _ _ _ _)
  · intro hl
    simp [IsCompatible, hl]

/-- C23 at a table that is not the shipped one, with two entries for the provider major 5:
for provider `"~> 5.0"` and module `"~> 7.0"` the recommendation is the first entry's 4,
which differs from 7 and is compatible with 5. -/
theorem notCompatible_recommendation_compatible_witness :
    recommendedLoop 5 [⟨5, 4⟩, ⟨5, 6⟩, ⟨6, 7⟩] = 4 ∧
    (extractMajorVersion "~> 5.0" ≠ -1 ∧ extractMajorVersion "~> 7.0" ≠ -1 ∧
      recommendedLoop (extractMajorVersion "~> 5.0") [⟨5, 4⟩, ⟨5, 6⟩, ⟨6, 7⟩] ≠
        extractMajorVersion "~> 7.0" ∧
      compatibleLoop (extractMajorVersion "~> 5.0")
        (recommendedLoop (extractMajorVersion "~> 5.0") [⟨5, 4⟩, ⟨5, 6⟩, ⟨6, 7⟩])
        [⟨5, 4⟩, ⟨5, 6⟩, ⟨6, 7⟩] = true ∧
      compatibleLoop (extractMajorVersion "~> 5.0") (extractMajorVersion "~> 7.0")
        [⟨5, 4⟩, ⟨5, 6⟩, ⟨6, 7⟩] = false) :=
  ⟨by decide,
   (notCompatible_recommendation_compatible [⟨5, 4⟩, ⟨5, 6⟩, ⟨6, 7⟩] "example/module/aws"
      "~> 7.0" (lineRange 13) "~> 5.0").2.1 (by rfl)⟩

/-! ## Uniqueness of the recommendation in the shipped table -/

theorem compatibleLoop_perm (p m : Int) {vm vm' : List sourceVersion} (h : vm.Perm vm') :
    compatibleLoop p m vm = compatibleLoop p m vm' := by
  have hiff : compatibleLoop p m vm = true ↔ compatibleLoop p m vm' = true := by
    rw [compatibleLoop_iff, compatibleLoop_iff]
    constructor
    · rintro ⟨e, he, h1⟩; exact ⟨e, h.mem_iff.1 he, h1⟩
    · rintro ⟨e, he, h1⟩; exact ⟨e, h.mem_iff.2 he, h1⟩
  cases h1 : compatibleLoop p m vm <;> cases h2 : compatibleLoop p m vm' <;> simp_all

theorem recommendedLoop_perm (p : Int) {vm vm' : List sourceVersion} (h : vm.Perm vm')
    (hn : (vm.map fun e => e.Provider).Nodup) :
    recommendedLoop p vm = recommendedLoop p vm' := by
  induction h with
  | nil => rfl
  | cons x _ ih =>
    simp only [List.map_cons, List.nodup_cons] at hn
    unfold recommendedLoop
    rw [ih hn.2]
  | swap x y l =>
    simp only [List.map_cons, List.nodup_cons, List.mem_cons, not_or] at hn
    have hne : y.Provider ≠ x.Provider := hn.1.1
    simp only [recommendedLoop]
    by_cases hx : x.Provider = p
    · have hy : ¬ y.Provider = p := fun e => hne (e.trans hx.symm)
      simp [hx, hy]
    · simp [hx]
  | trans h1 _ ih1 ih2 =>
    rw [ih1 hn, ih2 ((h1.map fun e => e.Provider).nodup_iff.1 hn)]

/-- When every provider major occurs at most once and no module major is the sentinel,
being compatible is being the recommendation. -/
theorem compatibleLoop_iff_recommended (p m : Int) (vm : List sourceVersion)
    (hn : (vm.map fun e => e.Provider).Nodup) (hs : ∀ e ∈ vm, e.Module ≠ -1) :
    compatibleLoop p m vm = true ↔ recommendedLoop p vm = m ∧ recommendedLoop p vm ≠ -1 := by
  induction vm with
  | nil => simp [compatibleLoop, recommendedLoop]
  | cons e es ih =>
    simp only [List.map_cons, List.nodup_cons] at hn
    unfold compatibleLoop recommendedLoop
    by_cases he : e.Provider = p
    · have hno : ∀ x ∈ es, x.Provider ≠ p := by
        intro x hx hxp
        exact hn.1 (List.mem_map.2 ⟨x, hx, hxp.trans he.symm⟩)
      have hce := compatibleLoop_of_no_entry p m es hno
      have hem := hs e (by simp)
      by_cases hm : e.Module = m
      · subst hm
        simp [he, hem]
      · simp [he, hm, hce]
    · simp only [he, false_and, if_false]
      exact ih hn.2 fun x hx => hs x (by simp [hx])

theorem shipped_providers_nodup (id : String) :
    (((sourceVersionMap.lookup id).getD []).map fun e => e.Provider).Nodup := by
  rcases lookup_sourceVersionMap id with ⟨-, h⟩ | ⟨-, h⟩ | ⟨-, h⟩ | ⟨-, h⟩ <;> rw [h] <;> decide

/-- C24. In the shipped table every component lists each provider major at most once;
`IsCompatible id p m` holds exactly when `RecommendedInternal id p` is found and is `m`;
and neither depends on the order of the entries of the component. -/
theorem isCompatible_iff_recommended (id : String) (p m : Int) :
    (((sourceVersionMap.lookup id).getD []).map fun e => e.Provider).Nodup ∧
    (IsCompatible id p m = true ↔ RecommendedInternal id p = (m, true)) ∧
    (∀ entries : List sourceVersion, ((sourceVersionMap.lookup id).getD []).Perm entries →
      recommendedLoop p entries = (RecommendedInternal id p).1 ∧
      compatibleLoop p m entries = IsCompatible id p m) := by
  have hn := shipped_providers_nodup id
  refine ⟨hn, ?_, ?_⟩
  · unfold IsCompatible RecommendedInternal
    rw [compatibleLoop_iff_recommended p m _ hn (shipped_module_ne_sentinel id)]
    simp only [Prod.mk.injEq, bne_iff_ne, ne_eq]
  · intro entries hperm
    exact ⟨(recommendedLoop_perm p hperm hn).symm, (compatibleLoop_perm p m hperm).symm⟩

/-- C24 at s3-bucket: provider major 5 has the one module major 4, also with the entries
in the opposite order. -/
theorem isCompatible_iff_recommended_witness :
    IsCompatible "terraform-aws-modules/s3-bucket/aws" 5 4 = true ∧
    RecommendedInternal "terraform-aws-modules/s3-bucket/aws" 5 = (4, true) ∧
    recommendedLoop 5 [⟨6, 5⟩, ⟨5, 4⟩] = 4 :=
  ⟨by decide,
   (isCompatible_iff_recommended "terraform-aws-modules/s3-bucket/aws" 5 4).2.1.1 (by decide),
   ((isCompatible_iff_recommended "terraform-aws-modules/s3-bucket/aws" 5 4).2.2
      [⟨6, 5⟩, ⟨5, 4⟩] (List.Perm.swap _ _ _)).1⟩

/-! ## The empty provider version -/

/-- C25. When the located provider version is the empty string, `getAwsProviderVersion`
returns what it returns when nothing is located, and `Check` succeeds with no issue,
whatever the document set, as it does when nothing is located. -/
theorem check_empty_provider_version (runner : Runner) (files : List (String × File))
    (hfiles : runner.GetFiles = .ok files)
    (hloc : AwsModuleVersionRule.awsVersionOfFiles files = .ok (some "")) :
    AwsModuleVersionRule.getAwsProviderVersion runner = .ok "" ∧
    AwsModuleVersionRule.Check runner = .ok [] ∧
    ∀ (runner' : Runner) (files' : List (String × File)), runner'.GetFiles = .ok files' →
      AwsModuleVersionRule.awsVersionOfFiles files' = .ok none →
      AwsModuleVersionRule.getAwsProviderVersion runner' =
        AwsModuleVersionRule.getAwsProviderVersion runner ∧
      AwsModuleVersionRule.Check runner' = AwsModuleVersionRule.Check runner := by
  obtain ⟨h1, h2⟩ := check_of_located_empty runner files hfiles (Or.inl hloc)
  refine ⟨h1, h2, ?_⟩
  intro runner' files' hfiles' hnone
  obtain ⟨h3, h4⟩ := check_of_located_empty runner' files' hfiles' (Or.inr hnone)
  rw [h1, h2, h3, h4]
  exact ⟨rfl, rfl⟩

/-- C25 at a declared `aws` version `""` with an s3-bucket module that has no version
attribute: no issue. -/
theorem check_empty_provider_version_witness :
    AwsModuleVersionRule.Check (testRunner [awsProviderBlock "",
      moduleBlockWithoutVersion "s3_bucket" "terraform-aws-modules/s3-bucket/aws"]) = .ok [] :=
  (check_empty_provider_version
    (testRunner [awsProviderBlock "",
      moduleBlockWithoutVersion "s3_bucket" "terraform-aws-modules/s3-bucket/aws"])
    [("resource.tf", ⟨some ⟨[], [awsProviderBlock "",
      moduleBlockWithoutVersion "s3_bucket" "terraform-aws-modules/s3-bucket/aws"]⟩⟩)]
    rfl (by rfl)).2.1

end TflintAbly
